import Mathlib

/-!
Verification development for the PubMed brick v2 processing pipeline
(`stages_v2/reprocess_parquet.py` and `stages_v2/download_and_process_baseline.py`).

The Python sources are shallowly embedded:

* JSON values (`json.loads` results) become the inductive type `JValue`;
  `json_loads` is an executable JSON parser following Python's `json.loads`
  (strict strings, `NaN`/`Infinity` literals accepted, last duplicate
  object key wins).  Numeric literals are kept as their source text; the
  pipeline only ever inspects digits of such literals, never float values.
* XML elements (`xml.etree.ElementTree`) become the inductive type `XElem`
  with `text`, attributes, children and `tail`, supporting `find`,
  `findall`, `itertext`, `findtext` and the `.//`-style searches the code
  uses.
* Python exceptions raised inside `extract_fields` (such as `len()` of an
  `int`, `.get` of a non-dict, or `str.join` over non-string elements) are
  modelled with `Except String`; the blanket `try/except` of
  `extract_article_fields` is modelled with `Option`.
-/

/-- Decoded JSON value, as produced by Python's `json.loads`.  Numbers keep
their literal source text (`num "2015"`); Python would hold `int`/`float`
values, and for integer literals the stored text equals Python's `str` of
the value, which is the only way the pipeline consumes numbers. -/
inductive JValue where
  | null : JValue
  | bool : Bool → JValue
  | num : String → JValue
  | str : String → JValue
  | arr : List JValue → JValue
  | obj : List (String × JValue) → JValue
deriving Inhabited

/-- Lookup in an object's field list, i.e. Python `dict.get` returning
`None` when the key is absent.  The parser keeps keys unique (duplicate
keys overwrite), so first-match lookup is dict lookup. -/
def jLookup : List (String × JValue) → String → Option JValue
  | [], _ => none
  | (k, v) :: rest, key => if k = key then some v else jLookup rest key

/-- Python `dict.get(key, default)` on an object field list. -/
def jGetD (fields : List (String × JValue)) (key : String) (default : JValue) : JValue :=
  match jLookup fields key with
  | some v => v
  | none => default

/-- Insert a key/value pair the way Python dicts do while `json.loads`
builds an object: an existing key keeps its position and gets the new
value, a new key is appended. -/
def jInsert : List (String × JValue) → String → JValue → List (String × JValue)
  | [], key, v => [(key, v)]
  | (k, w) :: rest, key, v =>
    if k = key then (k, v) :: rest else (k, w) :: jInsert rest key v

/-- Nonempty all-ASCII-digit test, Python `str.isdigit` (restricted to
ASCII digits; the pipeline's inputs are ASCII digit strings). -/
def isdigitStr (s : String) : Bool :=
  !s.isEmpty && s.data.all Char.isDigit

/-- Numeric value of an all-digit string, the value Python's `int` returns
on a string accepted by `str.isdigit`. -/
def digitsNat (s : String) : Nat :=
  s.data.foldl (fun acc c => acc * 10 + (c.toNat - 48)) 0

/-- Render a natural number in decimal, used to model Python `str(int)`. -/
def natDigits : Nat → Nat → List Char
  | _, 0 => []
  | n, fuel + 1 =>
    if n < 10 then [Char.ofNat (n + '0'.toNat)]
    else natDigits (n / 10) fuel ++ [Char.ofNat (n % 10 + '0'.toNat)]

/-- Decimal rendering of a natural number. -/
def natToString (n : Nat) : String :=
  String.mk (natDigits n (n + 1))

/-- Python `str` of an `int` value. -/
def intToString (i : Int) : String :=
  if i < 0 then "-" ++ natToString i.natAbs else natToString i.natAbs

/-- Truthiness of whether a numeric literal denotes zero: the mantissa
digits are all `0` (covers `0`, `-0`, `0.00`, `0e5`). -/
def numLitIsZero (lit : String) : Bool :=
  let noSign := if lit.startsWith "-" then lit.drop 1 else lit
  let mantissa := noSign.takeWhile (fun c => c ≠ 'e' ∧ c ≠ 'E')
  mantissa.data.all (fun c => c = '0' ∨ c = '.')
  && mantissa.data.any (fun c => c = '0')

/-- Python truthiness of a decoded JSON value: `None`, `False`, `0`, `''`,
`[]` and the empty dict are falsy. -/
def jTruthy : JValue → Bool
  | .null => false
  | .bool b => b
  | .num lit => !numLitIsZero lit
  | .str s => !s.isEmpty
  | .arr l => !l.isEmpty
  | .obj f => !f.isEmpty

/-- Normalized text of a numeric literal under Python `str`: an integer
literal renders as its `int` value (so `-0` becomes `0`); other literals
(floats, `NaN`, `Infinity`) are kept as written — an approximation of
float formatting that the pipeline never consumes. -/
def numLitStr (lit : String) : String :=
  let noSign := if lit.startsWith "-" then lit.drop 1 else lit
  if isdigitStr noSign then
    intToString (if lit.startsWith "-" then -(Int.ofNat (digitsNat noSign)) else Int.ofNat (digitsNat noSign))
  else lit

/-- JSON/Python whitespace recognized by the decoder. -/
def jsonWs (c : Char) : Bool :=
  c = ' ' || c = '\t' || c = '\n' || c = '\r'

/-- Skip leading JSON whitespace. -/
def skipWs : List Char → List Char
  | [] => []
  | c :: rest => if jsonWs c then skipWs rest else c :: rest

/-- Value of a hexadecimal digit. -/
def hexVal (c : Char) : Option Nat :=
  if '0' ≤ c ∧ c ≤ '9' then some (c.toNat - '0'.toNat)
  else if 'a' ≤ c ∧ c ≤ 'f' then some (c.toNat - 'a'.toNat + 10)
  else if 'A' ≤ c ∧ c ≤ 'F' then some (c.toNat - 'A'.toNat + 10)
  else none

/-- Parse four hex digits of a `\u` escape. -/
def parseHex4 : List Char → Option (Nat × List Char)
  | a :: b :: c :: d :: rest => do
    let va ← hexVal a
    let vb ← hexVal b
    let vc ← hexVal c
    let vd ← hexVal d
    pure (((va * 16 + vb) * 16 + vc) * 16 + vd, rest)
  | _ => none

/-- Parse the body of a JSON string after the opening quote, following
Python's strict decoder: raw control characters are rejected, the usual
escapes are handled, surrogate pairs in `\u` escapes are combined.  A lone
surrogate is rejected here (Python would keep it; Lean strings cannot). -/
def parseStringBody (fuel : Nat) (l : List Char) : Option (List Char × List Char) :=
  match fuel, l with
  | 0, _ => none
  | _, [] => none
  | fuel + 1, c :: rest =>
    if c = '"' then some ([], rest)
    else if c = '\\' then
      match rest with
      | [] => none
      | e :: rest2 =>
        let simple : Option Char :=
          if e = '"' then some '"'
          else if e = '\\' then some '\\'
          else if e = '/' then some '/'
          else if e = 'b' then some '\x08'
          else if e = 'f' then some '\x0c'
          else if e = 'n' then some '\n'
          else if e = 'r' then some '\r'
          else if e = 't' then some '\t'
          else none
        match simple with
        | some ch =>
          match parseStringBody fuel rest2 with
          | some (cs, rem) => some (ch :: cs, rem)
          | none => none
        | none =>
          if e = 'u' then
            match parseHex4 rest2 with
            | none => none
            | some (n, rest3) =>
              if 0xd800 ≤ n ∧ n ≤ 0xdbff then
                match rest3 with
                | '\\' :: 'u' :: rest4 =>
                  match parseHex4 rest4 with
                  | some (lo, rest5) =>
                    if 0xdc00 ≤ lo ∧ lo ≤ 0xdfff then
                      match parseStringBody fuel rest5 with
                      | some (cs, rem) =>
                        some (Char.ofNat (0x10000 + (n - 0xd800) * 0x400 + (lo - 0xdc00)) :: cs, rem)
                      | none => none
                    else none
                  | none => none
                | _ => none
              else if 0xdc00 ≤ n ∧ n ≤ 0xdfff then none
              else
                match parseStringBody fuel rest3 with
                | some (cs, rem) => some (Char.ofNat n :: cs, rem)
                | none => none
          else none
    else if c.toNat < 0x20 then none
    else
      match parseStringBody fuel rest with
      | some (cs, rem) => some (c :: cs, rem)
      | none => none

/-- Take a run of ASCII digits. -/
def takeDigits : List Char → List Char × List Char
  | [] => ([], [])
  | c :: rest =>
    if c.isDigit then
      let (ds, rem) := takeDigits rest
      (c :: ds, rem)
    else ([], c :: rest)

/-- Parse a JSON numeric literal (after an optional leading `-` has been
checked by the caller to be present in `l` itself), returning its source
text.  Follows the JSON grammar: no leading zeros, optional fraction and
exponent. -/
def parseNumberLit (l : List Char) : Option (List Char × List Char) :=
  let (sign, l1) :=
    match l with
    | '-' :: rest => (['-'], rest)
    | _ => ([], l)
  match l1 with
  | [] => none
  | c :: rest =>
    if !c.isDigit then none
    else
      let (intPart, l2) :=
        if c = '0' then ([c], rest)
        else
          let (ds, rem) := takeDigits rest
          (c :: ds, rem)
      -- leading zero followed by a digit is invalid JSON
      if c = '0' && (match rest with | d :: _ => d.isDigit | [] => false) then none
      else
        let (fracPart, l3) :=
          match l2 with
          | '.' :: afterDot =>
            match takeDigits afterDot with
            | ([], _) => ([], '.' :: afterDot)
            | (ds, rem) => ('.' :: ds, rem)
          | _ => ([], l2)
        -- a bare dot with no digits is invalid: detect and fail
        if fracPart.isEmpty && (match l2 with | '.' :: _ => true | _ => false) then none
        else
          let (expPart, l4) :=
            match l3 with
            | e :: afterE =>
              if e = 'e' ∨ e = 'E' then
                let (esign, afterSign) :=
                  match afterE with
                  | s :: r => if s = '+' ∨ s = '-' then ([s], r) else ([], afterE)
                  | [] => ([], afterE)
                match takeDigits afterSign with
                | ([], _) => ([], l3)
                | (ds, rem) => (e :: (esign ++ ds), rem)
              else ([], l3)
            | [] => ([], l3)
          if expPart.isEmpty && (match l3 with | e :: _ => e = 'e' || e = 'E' | [] => false) then none
          else some (sign ++ intPart ++ fracPart ++ expPart, l4)

/-- Check whether the input starts with the given keyword. -/
def startsWithChars : List Char → List Char → Option (List Char)
  | [], l => some l
  | _, [] => none
  | k :: ks, c :: cs => if k = c then startsWithChars ks cs else none

mutual

/-- Parse one JSON value, Python `json.loads` grammar (with the default
`NaN`/`Infinity`/`-Infinity` extensions). -/
def parseVal : Nat → List Char → Option (JValue × List Char)
  | 0, _ => none
  | fuel + 1, l =>
    match skipWs l with
    | [] => none
    | c :: rest =>
      if c = '"' then
        match parseStringBody (rest.length + 1) rest with
        | some (cs, rem) => some (.str (String.mk cs), rem)
        | none => none
      else if c = '\x7b' then
        match skipWs rest with
        | '\x7d' :: rem => some (.obj [], rem)
        | l2 => parseObjRest fuel l2 []
      else if c = '[' then
        match skipWs rest with
        | ']' :: rem => some (.arr [], rem)
        | l2 => parseArrRest fuel l2 []
      else
        match startsWithChars "true".data (c :: rest) with
        | some rem => some (.bool true, rem)
        | none =>
        match startsWithChars "false".data (c :: rest) with
        | some rem => some (.bool false, rem)
        | none =>
        match startsWithChars "null".data (c :: rest) with
        | some rem => some (.null, rem)
        | none =>
        match startsWithChars "NaN".data (c :: rest) with
        | some rem => some (.num "NaN", rem)
        | none =>
        match startsWithChars "Infinity".data (c :: rest) with
        | some rem => some (.num "Infinity", rem)
        | none =>
        match startsWithChars "-Infinity".data (c :: rest) with
        | some rem => some (.num "-Infinity", rem)
        | none =>
        match parseNumberLit (c :: rest) with
        | some (lit, rem) => some (.num (String.mk lit), rem)
        | none => none

/-- Parse the members of a JSON object after the opening brace (first
member pending), accumulating into Python-dict-semantics `jInsert`. -/
def parseObjRest (fuel : Nat) (l : List Char) (acc : List (String × JValue)) :
    Option (JValue × List Char) :=
  match fuel with
  | 0 => none
  | fuel + 1 =>
    match skipWs l with
    | '"' :: rest =>
      match parseStringBody (rest.length + 1) rest with
      | none => none
      | some (key, rem) =>
        match skipWs rem with
        | ':' :: rem2 =>
          match parseVal fuel rem2 with
          | none => none
          | some (v, rem3) =>
            let acc2 := jInsert acc (String.mk key) v
            match skipWs rem3 with
            | ',' :: rem4 => parseObjRest fuel rem4 acc2
            | '\x7d' :: rem4 => some (.obj acc2, rem4)
            | _ => none
        | _ => none
    | _ => none

/-- Parse the items of a JSON array after the opening bracket (first item
pending). -/
def parseArrRest (fuel : Nat) (l : List Char) (acc : List JValue) :
    Option (JValue × List Char) :=
  match fuel with
  | 0 => none
  | fuel + 1 =>
    match parseVal fuel l with
    | none => none
    | some (v, rem) =>
      match skipWs rem with
      | ',' :: rem2 => parseArrRest fuel rem2 (acc ++ [v])
      | ']' :: rem2 => some (.arr (acc ++ [v]), rem2)
      | _ => none

end

/-- Python `json.loads`: parse the whole string as one JSON document,
rejecting trailing garbage.  Returns `none` where Python raises
`json.JSONDecodeError`. -/
def json_loads (s : String) : Option JValue :=
  match parseVal (2 * s.length + 8) s.data with
  | some (v, rest) => if (skipWs rest).isEmpty then some v else none
  | none => none

/-- Hexadecimal digit character (lowercase). -/
def hexDigitChar (n : Nat) : Char :=
  if n < 10 then Char.ofNat (n + 48) else Char.ofNat (n - 10 + 97)

/-- Two lowercase hex digits. -/
def hex2 (n : Nat) : String :=
  String.mk [hexDigitChar (n / 16 % 16), hexDigitChar (n % 16)]

/-- Four lowercase hex digits. -/
def hex4 (n : Nat) : String :=
  String.mk [hexDigitChar (n / 4096 % 16), hexDigitChar (n / 256 % 16),
             hexDigitChar (n / 16 % 16), hexDigitChar (n % 16)]

/-- Escape of one character inside Python `repr` of a string quoted with
`q` (common cases: backslash, the quote, newline/return/tab, other control
characters as `\xNN`; printable characters kept). -/
def strReprChar (q : Char) (c : Char) : String :=
  if c = '\\' then "\\\\"
  else if c = q then String.mk ['\\', q]
  else if c = '\n' then "\\n"
  else if c = '\r' then "\\r"
  else if c = '\t' then "\\t"
  else if c.toNat < 0x20 || c.toNat = 0x7f then "\\x" ++ hex2 c.toNat
  else String.singleton c

/-- Python `repr` of a string: single quotes by default, double quotes when
the text contains a single quote but no double quote. -/
def strRepr (s : String) : String :=
  let q : Char := if s.data.contains '\x27' && !(s.data.contains '\x22') then '\x22' else '\x27'
  String.singleton q ++ String.join (s.data.map (strReprChar q)) ++ String.singleton q

mutual

/-- Python `repr` of a decoded JSON value (`str` falls back to this for
dicts and lists, which is how `extract_fields` turns unexpected
substructures into text). -/
def pyRepr : JValue → String
  | .null => "None"
  | .bool true => "True"
  | .bool false => "False"
  | .num lit => numLitStr lit
  | .str s => strRepr s
  | .arr items => "[" ++ pyReprItems items ++ "]"
  | .obj fields => "\x7b" ++ pyReprFields fields ++ "\x7d"

/-- Comma-joined reprs of list items. -/
def pyReprItems : List JValue → String
  | [] => ""
  | [x] => pyRepr x
  | x :: y :: rest => pyRepr x ++ ", " ++ pyReprItems (y :: rest)

/-- Comma-joined `key: value` reprs of dict entries. -/
def pyReprFields : List (String × JValue) → String
  | [] => ""
  | [(k, v)] => strRepr k ++ ": " ++ pyRepr v
  | (k, v) :: p :: rest => strRepr k ++ ": " ++ pyRepr v ++ ", " ++ pyReprFields (p :: rest)

end

/-- Python `str` of a decoded JSON value. -/
def pyStr : JValue → String
  | .str s => s
  | .null => "None"
  | .bool true => "True"
  | .bool false => "False"
  | .num lit => numLitStr lit
  | .arr items => pyRepr (.arr items)
  | .obj fields => pyRepr (.obj fields)

/-- Check for the empty dict, Python `d != \x7b\x7d` in `safe_get`. -/
def isEmptyObj : JValue → Bool
  | .obj [] => true
  | _ => false

/-- Function `safe_get` of `reprocess_parquet.py` (lines 41-48): navigate
nested dicts with default `\x7b\x7d` per step, returning `''` whenever a
step hits a non-dict or the final value is falsy or the empty dict. -/
def safe_get : JValue → List String → JValue
  | d, [] => if jTruthy d && !isEmptyObj d then d else .str ""
  | d, key :: rest =>
    match d with
    | .obj fields => safe_get (jGetD fields key (.obj [])) rest
    | _ => .str ""

/-- Python attribute call `v.get(key, default)`: raises `AttributeError`
when `v` is not a dict. -/
def pyGetAttrE (v : JValue) (key : String) (default : JValue) : Except String JValue :=
  match v with
  | .obj fields => .ok (jGetD fields key default)
  | _ => .error "AttributeError: get"

mutual

/-- Function `extract_text` of `reprocess_parquet.py` (lines 51-61).  The
dict branch returns `obj.get('#text', str(obj))`, which may be a non-string
value; the list branch `' '.join(...)` then raises `TypeError` on such a
value, modelled as `.error`. -/
def extract_text : JValue → Except String JValue
  | .null => .ok (.str "")
  | .str s => .ok (.str s)
  | .obj fields =>
    .ok (match jLookup fields "#text" with
         | some v => v
         | none => .str (pyStr (.obj fields)))
  | .arr items =>
    match extract_text_join items with
    | .error e => .error e
    | .ok parts => .ok (.str (String.intercalate " " parts))
  | .num lit => .ok (.str (pyStr (.num lit)))
  | .bool b => .ok (.str (pyStr (.bool b)))

/-- Sequential `' '.join` over recursive `extract_text` results, raising
`TypeError` at the first non-string element. -/
def extract_text_join : List JValue → Except String (List String)
  | [] => .ok []
  | x :: xs =>
    match extract_text x with
    | .error e => .error e
    | .ok (.str s) =>
      match extract_text_join xs with
      | .error e => .error e
      | .ok rest => .ok (s :: rest)
    | .ok _ => .error "TypeError: join"

end

/-- Python `'sep'.join(parts)` over already-built parts: checks each part
is a string, left to right. -/
def allStrs : List JValue → Except String (List String)
  | [] => .ok []
  | .str s :: rest =>
    match allStrs rest with
    | .error e => .error e
    | .ok ss => .ok (s :: ss)
  | _ :: _ => .error "TypeError: join"

/-- Join with separator, raising `TypeError` on a non-string part. -/
def pyJoinStrs (sep : String) (parts : List JValue) : Except String String :=
  match allStrs parts with
  | .error e => .error e
  | .ok ss => .ok (String.intercalate sep ss)

/-- Python whitespace stripped by `int(str)`. -/
def pyWs (c : Char) : Bool :=
  c = ' ' || c = '\t' || c = '\n' || c = '\r' || c = '\x0b' || c = '\x0c'

/-- Digit accumulation allowing single underscores strictly between digits
(Python 3.6+ `int` literal grouping). -/
def pudAux : List Char → Nat → Option Nat
  | [], acc => some acc
  | c :: rest, acc =>
    if c.isDigit then pudAux rest (acc * 10 + (c.toNat - 48))
    else if c = '_' then
      match rest with
      | d :: rest2 => if d.isDigit then pudAux rest2 (acc * 10 + (d.toNat - 48)) else none
      | [] => none
    else none

/-- Nonempty digit run with optional grouping underscores. -/
def parseUnderscoreDigits : List Char → Option Nat
  | [] => none
  | c :: rest => if c.isDigit then pudAux rest (c.toNat - 48) else none

/-- Python `int(s)` on a string: optional surrounding whitespace, optional
sign, ASCII digits with optional grouping underscores; `none` models
`ValueError`. -/
def pyIntParse (s : String) : Option Int :=
  let t := ((s.data.dropWhile pyWs).reverse.dropWhile pyWs).reverse
  match t with
  | [] => none
  | c :: rest =>
    let (neg, ds) :=
      if c = '-' then (true, rest)
      else if c = '+' then (false, rest)
      else (false, c :: rest)
    match parseUnderscoreDigits ds with
    | none => none
    | some n => some (if neg then -(Int.ofNat n) else Int.ofNat n)

/-- Python `.strip(', ')`: drop commas and spaces from both ends. -/
def stripCommaSpace (s : String) : String :=
  let f := fun (c : Char) => c = ',' || c = ' '
  String.mk (((s.data.dropWhile f).reverse.dropWhile f).reverse)

/-- Flat output row of the v2 schema.  `Title`, `DOI` and `Journal` are
kept as `JValue` because the blob-path extractor can place a non-string
decoded value there (e.g. `aid.get('#text', '')` at line 124 of
`reprocess_parquet.py`); on real data these are strings. -/
structure Row where
  PMID : Int
  Title : JValue
  Abstract : String
  DOI : JValue
  Year : Option Int
  Authors : String
  Journal : JValue
  MeSH_Terms : String
  Keywords : String
  Pub_Types : String
  Date_Created : String
  Date_Revised : String
  JSON : String
deriving Inhabited

/-- PMID resolution of `extract_fields` (lines 90-91 of
`reprocess_parquet.py`): `pmid_val = safe_get(medline,'PMID','#text') or
pmid`, then `int(pmid_val) if str(pmid_val).isdigit() else 0`. -/
def pmidResolve (pmid : String) (pmidField : JValue) : Int :=
  let pmid_val : JValue := if jTruthy pmidField then pmidField else .str pmid
  if isdigitStr (pyStr pmid_val) then Int.ofNat (digitsNat (pyStr pmid_val)) else 0

/-- Abstract segment list of `extract_fields` (lines 97-114): labelled
segments become `"Label: text"`, unlabelled dict segments keep their
`#text` value (which may be a non-string, caught later by the join). -/
def abstractParts (abstract_data : JValue) : List JValue :=
  if jTruthy abstract_data then
    match abstract_data with
    | .arr items =>
      items.map (fun item =>
        match item with
        | .obj fields =>
          let label := jGetD fields "@Label" (.str "")
          let text :=
            match jLookup fields "#text" with
            | some v => v
            | none => .str (pyStr (.obj fields))
          if jTruthy label then .str (pyStr label ++ ": " ++ pyStr text) else text
        | other => .str (pyStr other))
    | .obj fields =>
      [match jLookup fields "#text" with
       | some v => v
       | none => .str (pyStr (.obj fields))]
    | other => [.str (pyStr other)]
  else []

/-- Predicate for `aid.get('@IdType') == 'doi'`: a case-sensitive string
comparison, false for a missing tag or a non-string tag. -/
def isDoiTagged (fields : List (String × JValue)) : Bool :=
  match jLookup fields "@IdType" with
  | some (.str t) => t = "doi"
  | _ => false

/-- Combined loop condition `isinstance(aid, dict) and aid.get('@IdType')
== 'doi'` (line 123). -/
def isDoiEntry : JValue → Bool
  | .obj fields => isDoiTagged fields
  | _ => false

/-- Value taken on a match, `aid.get('#text', '')` (line 124); the
non-dict case is unreachable under `isDoiEntry`. -/
def doiEntryText : JValue → JValue
  | .obj fields => jGetD fields "#text" (.str "")
  | _ => .str ""

/-- DOI loop of `extract_fields` (lines 121-125): scan the id list,
return the `#text` of the first dict entry tagged `doi` (the `break`),
empty string when none matches. -/
def doiLoop : List JValue → JValue
  | [] => .str ""
  | a :: rest => if isDoiEntry a then doiEntryText a else doiLoop rest

/-- DOI block of `extract_fields` (lines 117-127), covering the list shape,
the single-dict shape, and falsy/other shapes. -/
def doiFromArticleIds (article_ids : JValue) : JValue :=
  if jTruthy article_ids then
    match article_ids with
    | .arr l => doiLoop l
    | .obj fields => if isDoiTagged fields then jGetD fields "#text" (.str "") else .str ""
    | _ => .str ""
  else .str ""

/-- Explicit-year part of the year block of `extract_fields` (lines
130-135): a truthy `Year` whose `str` is all digits. -/
def yearExplicit (pd : List (String × JValue)) : Option Int :=
  let year_str := jGetD pd "Year" (.str "")
  if jTruthy year_str && isdigitStr (pyStr year_str)
  then some (Int.ofNat (digitsNat (pyStr year_str))) else none

/-- MedlineDate fallback of the year block (lines 136-142), keeping
`year1` when it does not fire. -/
def yearFallback (pd : List (String × JValue)) (year1 : Option Int) : Except String (Option Int) :=
  let md := jGetD pd "MedlineDate" (.str "")
  if jTruthy md then
    match md with
    | .str s =>
      if s.length ≥ 4 then
        if isdigitStr (String.mk (s.data.take 4))
        then .ok (some (Int.ofNat (digitsNat (String.mk (s.data.take 4)))))
        else .ok year1
      else .ok year1
    | .obj fields => if fields.length ≥ 4 then .error "TypeError: slice" else .ok year1
    | .arr items => if items.length ≥ 4 then .error "AttributeError: isdigit" else .ok year1
    | _ => .error "TypeError: len"
  else .ok year1

/-- Year block of `extract_fields` (lines 129-142).  Python's `if not
year:` treats a parsed year of `0` as unresolved, so the `MedlineDate`
fallback is consulted both when the explicit `Year` is missing or
non-numeric and when it parses to `0`.  `len()` of an `int`, slicing a
dict, and `.isdigit()` on a list raise, modelled as `.error`. -/
def yearFromPubDate (pub_date : JValue) : Except String (Option Int) :=
  match pub_date with
  | .obj pd =>
    let year1 := yearExplicit pd
    if (match year1 with | some v => decide (v ≠ 0) | none => false) then .ok year1
    else yearFallback pd year1
  | _ => .ok none

/-- One author entry (lines 150-154 / 155-159): `"Last, First"` stripped of
trailing comma/space, skipped when `LastName` is falsy. -/
def authorName (fields : List (String × JValue)) : Option String :=
  let last := jGetD fields "LastName" (.str "")
  let first := jGetD fields "ForeName" (.str "")
  if jTruthy last then some (stripCommaSpace (pyStr last ++ ", " ++ pyStr first)) else none

/-- Authors block of `extract_fields` (lines 144-160). -/
def authorsFrom (author_list : JValue) : List String :=
  if jTruthy author_list then
    match author_list with
    | .arr items =>
      items.filterMap (fun a =>
        match a with
        | .obj fields => authorName fields
        | _ => none)
    | .obj fields =>
      match authorName fields with
      | some s => [s]
      | none => []
    | _ => []
  else []

/-- MeSH block of `extract_fields` (lines 166-181). -/
def meshTerms (mesh_list : JValue) : List JValue :=
  if jTruthy mesh_list then
    match mesh_list with
    | .arr items =>
      items.filterMap (fun m =>
        match m with
        | .obj fields =>
          match jGetD fields "DescriptorName" (.obj []) with
          | .obj dfields => some (jGetD dfields "#text" (.str ""))
          | .str s => some (.str s)
          | _ => none
        | _ => none)
    | .obj fields =>
      match jGetD fields "DescriptorName" (.obj []) with
      | .obj dfields => [jGetD dfields "#text" (.str "")]
      | _ => []
    | _ => []
  else []

/-- Keywords block of `extract_fields` (lines 184-197). -/
def keywordTerms (kw_list : JValue) : List JValue :=
  if jTruthy kw_list then
    match kw_list with
    | .arr items =>
      items.filterMap (fun kw =>
        match kw with
        | .obj fields => some (jGetD fields "#text" (.str ""))
        | .str s => some (.str s)
        | _ => none)
    | .obj fields => [jGetD fields "#text" (.str "")]
    | .str s => [.str s]
    | _ => []
  else []

/-- Publication-type block of `extract_fields` (lines 200-211); unlike
keywords there is no scalar-string shape. -/
def pubTypeTerms (pt_list : JValue) : List JValue :=
  if jTruthy pt_list then
    match pt_list with
    | .arr items =>
      items.filterMap (fun pt =>
        match pt with
        | .obj fields => some (jGetD fields "#text" (.str ""))
        | .str s => some (.str s)
        | _ => none)
    | .obj fields => [jGetD fields "#text" (.str "")]
    | _ => []
  else []

/-- Date blocks of `extract_fields` (lines 214-222): `"Y-M-D"` with month
and day defaulting to `01`, empty unless `Year` is present and truthy. -/
def dateFrom (d : JValue) : String :=
  match d with
  | .obj fields =>
    if (match jLookup fields "Year" with | some v => jTruthy v | none => false) then
      pyStr (jGetD fields "Year" (.str "")) ++ "-" ++
      pyStr (jGetD fields "Month" (.str "01")) ++ "-" ++
      pyStr (jGetD fields "Day" (.str "01"))
    else ""
  | _ => ""

/-- Degraded row returned by `extract_fields` when the blob fails to
decode (lines 69-83): identifier parsed from the enclosing PMID string
when it is all digits, everything else empty/null, blob passed through. -/
def degradedRow (pmid json_str : String) : Row :=
  { PMID := if isdigitStr pmid then Int.ofNat (digitsNat pmid) else 0
    Title := .str ""
    Abstract := ""
    DOI := .str ""
    Year := none
    Authors := ""
    Journal := .str ""
    MeSH_Terms := ""
    Keywords := ""
    Pub_Types := ""
    Date_Created := ""
    Date_Revised := ""
    JSON := json_str }

/-- Body of `extract_fields` after a successful `json.loads` (lines
85-238), with each uncaught-exception point surfaced as `.error` in source
order. -/
def extract_fields_decoded (pmid json_str : String) (data : JValue) : Except String Row :=
  match pyGetAttrE data "MedlineCitation" (.obj []) with
  | .error e => .error e
  | .ok medline =>
  match pyGetAttrE medline "Article" (.obj []) with
  | .error e => .error e
  | .ok article =>
  match pyGetAttrE data "PubmedData" (.obj []) with
  | .error e => .error e
  | .ok pubmed_data =>
  let pmid_int := pmidResolve pmid (safe_get medline ["PMID", "#text"])
  match pyGetAttrE article "ArticleTitle" (.str "") with
  | .error e => .error e
  | .ok articleTitleRaw =>
  match extract_text articleTitleRaw with
  | .error e => .error e
  | .ok title =>
  match pyJoinStrs " " (abstractParts (safe_get article ["Abstract", "AbstractText"])) with
  | .error e => .error e
  | .ok abstract =>
  let doi := doiFromArticleIds (safe_get pubmed_data ["ArticleIdList", "ArticleId"])
  match yearFromPubDate (safe_get article ["Journal", "JournalIssue", "PubDate"]) with
  | .error e => .error e
  | .ok year =>
  let authors_str := String.intercalate "; " (authorsFrom (safe_get article ["AuthorList", "Author"]))
  match extract_text (safe_get article ["Journal", "Title"]) with
  | .error e => .error e
  | .ok journal =>
  match pyJoinStrs "; " (meshTerms (safe_get medline ["MeshHeadingList", "MeshHeading"])) with
  | .error e => .error e
  | .ok mesh_str =>
  match pyJoinStrs "; " (keywordTerms (safe_get medline ["KeywordList", "Keyword"])) with
  | .error e => .error e
  | .ok keywords_str =>
  match pyJoinStrs "; " (pubTypeTerms (safe_get article ["PublicationTypeList", "PublicationType"])) with
  | .error e => .error e
  | .ok pub_types_str =>
  match pyGetAttrE medline "DateCreated" (.obj []) with
  | .error e => .error e
  | .ok dc =>
  match pyGetAttrE medline "DateRevised" (.obj []) with
  | .error e => .error e
  | .ok dr =>
  .ok { PMID := pmid_int
        Title := title
        Abstract := abstract
        DOI := doi
        Year := year
        Authors := authors_str
        Journal := journal
        MeSH_Terms := mesh_str
        Keywords := keywords_str
        Pub_Types := pub_types_str
        Date_Created := dateFrom dc
        Date_Revised := dateFrom dr
        JSON := json_str }

/-- Function `extract_fields` of `reprocess_parquet.py` (lines 64-238):
decode the blob; on `JSONDecodeError` return the degraded row, otherwise
extract fields.  `.error` models a Python exception escaping the function
(there is no blanket handler), which aborts the whole file task. -/
def extract_fields (pmid json_str : String) : Except String Row :=
  match json_loads json_str with
  | none => .ok (degradedRow pmid json_str)
  | some data => extract_fields_decoded pmid json_str data

/-- Element of an `xml.etree.ElementTree` parse: tag, attributes, text
before the first child, children, and tail text after the element's own
closing tag. -/
inductive XElem where
  | mk : String → List (String × String) → Option String → List XElem → Option String → XElem

/-- Tag name. -/
def XElem.tag : XElem → String
  | .mk t _ _ _ _ => t

/-- Attribute list. -/
def XElem.attrs : XElem → List (String × String)
  | .mk _ a _ _ _ => a

/-- Text before the first child (`elem.text`). -/
def XElem.text : XElem → Option String
  | .mk _ _ t _ _ => t

/-- Child elements. -/
def XElem.children : XElem → List XElem
  | .mk _ _ _ c _ => c

/-- Tail text (`elem.tail`). -/
def XElem.tail : XElem → Option String
  | .mk _ _ _ _ t => t

/-- ElementTree `elem.get(key)`: attribute lookup. -/
def XElem.attrGet (e : XElem) (key : String) : Option String :=
  match e.attrs.find? (fun p => p.1 = key) with
  | some p => some p.2
  | none => none

/-- ElementTree `elem.find(tag)` for a plain tag: first direct child with
that tag. -/
def XElem.findChild (e : XElem) (t : String) : Option XElem :=
  e.children.find? (fun c => c.tag = t)

/-- ElementTree `elem.findtext(tag)`: `none` when no such child; a found
child with `text = None` yields the empty string. -/
def XElem.findtext (e : XElem) (t : String) : Option String :=
  match e.findChild t with
  | some c => some (c.text.getD "")
  | none => none

mutual

/-- Proper descendants in document (pre)order, the elements `.//tag`
searches range over. -/
def XElem.descendants : XElem → List XElem
  | .mk _ _ _ c _ => XElem.descList c

/-- Descendant enumeration of a child list. -/
def XElem.descList : List XElem → List XElem
  | [] => []
  | c :: rest => c :: XElem.descendants c ++ XElem.descList rest

end

mutual

/-- ElementTree `''.join(elem.itertext())`: the element's text followed by
each child's itertext and tail, recursively. -/
def XElem.itertext : XElem → String
  | .mk _ _ t c _ => t.getD "" ++ XElem.itertextList c

/-- Concatenated itertext-plus-tail of a child list. -/
def XElem.itertextList : List XElem → String
  | [] => ""
  | c :: rest => XElem.itertext c ++ (XElem.tail c).getD "" ++ XElem.itertextList rest

end

/-- ElementTree `elem.findall('.//tag')`: all descendants with the tag, in
document order. -/
def findAllDesc (e : XElem) (t : String) : List XElem :=
  e.descendants.filter (fun d => d.tag = t)

/-- ElementTree `elem.find('.//tag')`: first descendant with the tag. -/
def findDesc (e : XElem) (t : String) : Option XElem :=
  e.descendants.find? (fun d => d.tag = t)

/-- ElementTree `elem.findall('.//a/b')`: children tagged `b` of
descendants tagged `a`. -/
def findAllPath2 (e : XElem) (t1 t2 : String) : List XElem :=
  (findAllDesc e t1).flatMap (fun a => a.children.filter (fun c => c.tag = t2))

/-- ElementTree `elem.find('.//a/b')`. -/
def findDescPath2 (e : XElem) (t1 t2 : String) : Option XElem :=
  (findAllPath2 e t1 t2).head?

/-- JSON string escape of one character as Python `json.dumps` writes it
with the default `ensure_ascii=True` (non-ASCII as `\uXXXX`, astral
characters as surrogate pairs). -/
def jsonEscapeChar (c : Char) : String :=
  if c = '"' then "\\\""
  else if c = '\\' then "\\\\"
  else if c = '\n' then "\\n"
  else if c = '\r' then "\\r"
  else if c = '\t' then "\\t"
  else if c = '\x08' then "\\b"
  else if c = '\x0c' then "\\f"
  else if c.toNat < 0x20 then "\\u" ++ hex4 c.toNat
  else if c.toNat < 0x7f then String.singleton c
  else if c.toNat ≤ 0xffff then "\\u" ++ hex4 c.toNat
  else
    "\\u" ++ hex4 (0xd800 + (c.toNat - 0x10000) / 0x400) ++
    "\\u" ++ hex4 (0xdc00 + (c.toNat - 0x10000) % 0x400)

/-- Quoted JSON string literal as `json.dumps` writes it. -/
def jsonQuote (s : String) : String :=
  "\"" ++ String.join (s.data.map jsonEscapeChar) ++ "\""

/-- The simplified `json.dumps(\x7b...\x7d)` of `extract_article_fields`
(lines 194-205 of `download_and_process_baseline.py`): ten extracted
fields re-serialized with default separators, in dict insertion order. -/
def jsonDumpsSimplified (pmid : Int) (title abstract doi : String) (year : Option Int)
    (authors journal mesh keywords pubTypes : String) : String :=
  "\x7b\"PMID\": " ++ intToString pmid ++
  ", \"Title\": " ++ jsonQuote title ++
  ", \"Abstract\": " ++ jsonQuote abstract ++
  ", \"DOI\": " ++ jsonQuote doi ++
  ", \"Year\": " ++ (match year with | some y => intToString y | none => "null") ++
  ", \"Authors\": " ++ jsonQuote authors ++
  ", \"Journal\": " ++ jsonQuote journal ++
  ", \"MeSH_Terms\": " ++ jsonQuote mesh ++
  ", \"Keywords\": " ++ jsonQuote keywords ++
  ", \"Pub_Types\": " ++ jsonQuote pubTypes ++
  "\x7d"

/-- XML text-content escaping (as `ElementTree.tostring` writes character
data). -/
def xmlEscapeText (s : String) : String :=
  String.join (s.data.map (fun c =>
    if c = '&' then "&amp;"
    else if c = '<' then "&lt;"
    else if c = '>' then "&gt;"
    else String.singleton c))

/-- XML attribute-value escaping. -/
def xmlEscapeAttr (s : String) : String :=
  String.join (s.data.map (fun c =>
    if c = '&' then "&amp;"
    else if c = '<' then "&lt;"
    else if c = '"' then "&quot;"
    else String.singleton c))

mutual

/-- Serialization of an element back to XML source text, in the style of
`ElementTree.tostring` (attributes in stored order, short form for empty
elements).  This is "the original serialized record" for a record read
from the baseline XML. -/
def serializeXElem : XElem → String
  | .mk tag attrs text children _ =>
    let attrStr := String.join (attrs.map (fun p => " " ++ p.1 ++ "=\"" ++ xmlEscapeAttr p.2 ++ "\""))
    match text, children with
    | none, [] => "<" ++ tag ++ attrStr ++ " />"
    | _, _ =>
      "<" ++ tag ++ attrStr ++ ">" ++ xmlEscapeText (text.getD "") ++
      serializeList children ++ "</" ++ tag ++ ">"

/-- Serialization of a child list, each followed by its tail text. -/
def serializeList : List XElem → String
  | [] => ""
  | c :: rest => serializeXElem c ++ xmlEscapeText ((XElem.tail c).getD "") ++ serializeList rest

end

/-- DOI loop of `extract_article_fields` (lines 110-113 of
`download_and_process_baseline.py`): first `.//ArticleId` with attribute
`IdType` equal to `doi` (case-sensitive), taking `aid.text or ''`;
the `break` stops at the first match. -/
def isDoiXml (a : XElem) : Bool :=
  decide (a.attrGet "IdType" = some "doi")

/-- DOI loop of `extract_article_fields`, first `.//ArticleId` whose
`IdType` attribute equals `doi`. -/
def doiXmlLoop : List XElem → String
  | [] => ""
  | a :: rest => if isDoiXml a then (a.text).getD "" else doiXmlLoop rest

/-- Year block of `extract_article_fields` (lines 119-132) given the
`.//PubDate` element: `int(Year.text)` with `ValueError` swallowed, then
the `re.match(r'(\d\x7b4\x7d)', MedlineDate.text)` fallback only when the
explicit year did not resolve. -/
def yearFromPubDateXml (pub_date : XElem) : Option Int :=
  let y1 : Option Int :=
    match pub_date.findChild "Year" with
    | some ye =>
      match ye.text with
      | some t => if t = "" then none else pyIntParse t
      | none => none
    | none => none
  match y1 with
  | some v => some v
  | none =>
    match pub_date.findChild "MedlineDate" with
    | some mde =>
      match mde.text with
      | some t =>
        if t ≠ "" ∧ t.length ≥ 4 ∧ isdigitStr (String.mk (t.data.take 4))
        then some (Int.ofNat (digitsNat (String.mk (t.data.take 4))))
        else none
      | none => none
    | none => none

/-- Year resolution of `extract_article_fields` starting from the
`Article` element (lines 116-132): `article.find('.//PubDate')` then
`yearFromPubDateXml`. -/
def xmlYearOf (article : Option XElem) : Option Int :=
  match article with
  | none => none
  | some a =>
    match findDesc a "PubDate" with
    | none => none
    | some pd => yearFromPubDateXml pd

/-- Author list of `extract_article_fields` (lines 135-142). -/
def xmlAuthors (article : Option XElem) : List String :=
  match article with
  | none => []
  | some a =>
    (findAllDesc a "Author").filterMap (fun au =>
      let last := (au.findtext "LastName").getD ""
      let first := (au.findtext "ForeName").getD ""
      if last ≠ "" then some (stripCommaSpace (last ++ ", " ++ first)) else none)

/-- Function `extract_article_fields` of
`download_and_process_baseline.py` (lines 75-224).  Returns `none` when
`MedlineCitation` is missing (line 79) or when the blanket
`except Exception` catches the `ValueError` of `int(pmid_elem.text)`
(line 87) — the only statement in the body that can raise. -/
def extract_article_fields (article_elem : XElem) : Option Row :=
  match article_elem.findChild "MedlineCitation" with
  | none => none
  | some medline =>
    let pubmed_data := article_elem.findChild "PubmedData"
    let article := medline.findChild "Article"
    let pmidE : Option Int :=
      match medline.findChild "PMID" with
      | some pe =>
        match pe.text with
        | some t => if t = "" then some 0 else pyIntParse t
        | none => some 0
      | none => some 0
    match pmidE with
    | none => none
    | some pmid =>
      let title :=
        match article with
        | some a =>
          match a.findChild "ArticleTitle" with
          | some te => te.itertext
          | none => ""
        | none => ""
      let abstract_parts : List String :=
        match article with
        | none => []
        | some a =>
          match a.findChild "Abstract" with
          | none => []
          | some ab =>
            (ab.children.filter (fun c => c.tag = "AbstractText")).map (fun te =>
              let label := (te.attrGet "Label").getD ""
              let content := te.itertext
              if label ≠ "" then label ++ ": " ++ content else content)
      let abstract := String.intercalate " " abstract_parts
      let doi :=
        match pubmed_data with
        | none => ""
        | some pd => doiXmlLoop (findAllDesc pd "ArticleId")
      let year := xmlYearOf article
      let authors_str := String.intercalate "; " (xmlAuthors article)
      let journal :=
        match article with
        | none => ""
        | some a =>
          match findDescPath2 a "Journal" "Title" with
          | some je => (je.text).getD ""
          | none => ""
      let mesh_str := String.intercalate "; "
        ((findAllPath2 medline "MeshHeading" "DescriptorName").filterMap (fun m =>
          match m.text with
          | some t => if t ≠ "" then some t else none
          | none => none))
      let keywords_str := String.intercalate "; "
        ((findAllDesc medline "Keyword").filterMap (fun kw =>
          match kw.text with
          | some t => if t ≠ "" then some t else none
          | none => none))
      let pt_elems : List XElem :=
        match article with
        | none => []
        | some a => findAllDesc a "PublicationType"
      let pub_types_str := String.intercalate "; "
        (pt_elems.filterMap (fun pt =>
          match pt.text with
          | some t => if t ≠ "" then some t else none
          | none => none))
      let date_created :=
        match medline.findChild "DateCreated" with
        | none => ""
        | some dc =>
          let y := (dc.findtext "Year").getD ""
          let m := let m0 := (dc.findtext "Month").getD ""; if m0 = "" then "01" else m0
          let d := let d0 := (dc.findtext "Day").getD ""; if d0 = "" then "01" else d0
          if y ≠ "" then y ++ "-" ++ m ++ "-" ++ d else ""
      let date_revised :=
        match medline.findChild "DateRevised" with
        | none => ""
        | some dr =>
          let y := (dr.findtext "Year").getD ""
          let m := let m0 := (dr.findtext "Month").getD ""; if m0 = "" then "01" else m0
          let d := let d0 := (dr.findtext "Day").getD ""; if d0 = "" then "01" else d0
          if y ≠ "" then y ++ "-" ++ m ++ "-" ++ d else ""
      let json_str := jsonDumpsSimplified pmid title abstract doi year
        authors_str journal mesh_str keywords_str pub_types_str
      some { PMID := pmid
             Title := .str title
             Abstract := abstract
             DOI := .str doi
             Year := year
             Authors := authors_str
             Journal := .str journal
             MeSH_Terms := mesh_str
             Keywords := keywords_str
             Pub_Types := pub_types_str
             Date_Created := date_created
             Date_Revised := date_revised
             JSON := json_str }

/-- Partition key of a row, `record['Year'] or 0` (line 255 of
`reprocess_parquet.py`, line 240 of `download_and_process_baseline.py`):
Python `or` maps both a null year and a year of `0` to the sentinel 0. -/
def routeKey : Option Int → Int
  | none => 0
  | some y => if y = 0 then 0 else y

/-- In-memory partition buckets of one file task (`records_by_year`), a
dict from year key to the rows appended so far, in key insertion order. -/
abbrev Buckets := List (Int × List Row)

/-- Append a row to the bucket with the given key, creating the bucket at
the end when the key is new (`if year not in records_by_year: ... = []`
then `append`). -/
def addRecord : Buckets → Int → Row → Buckets
  | [], k, r => [(k, [r])]
  | (k', rs) :: rest, k, r =>
    if k' = k then (k', rs ++ [r]) :: rest else (k', rs) :: addRecord rest k r

/-- Rows currently in the bucket with the given key (empty when the key is
absent). -/
def bucketOf : Buckets → Int → List Row
  | [], _ => []
  | (k', rs) :: rest, k => if k' = k then rs else bucketOf rest k

/-- Keys of the buckets, in insertion order. -/
def bucketKeys (bs : Buckets) : List Int :=
  bs.map Prod.fst

/-- Total number of rows across all buckets. -/
def sumSizes : Buckets → Nat
  | [] => 0
  | (_, rs) :: rest => rs.length + sumSizes rest

/-- Record loop of `process_parquet_file` (lines 252-258): extract each
`(PMID, JSON)` input row (the PMID column is rendered with `str`) and
append the result to its year bucket; an exception escaping
`extract_fields` aborts the whole file task. -/
def processParquetRecords : List (Int × String) → Buckets → Except String Buckets
  | [], bs => .ok bs
  | (pmid, js) :: rest, bs =>
    match extract_fields (intToString pmid) js with
    | .error e => .error e
    | .ok r => processParquetRecords rest (addRecord bs (routeKey r.Year) r)

/-- Statistics value returned by one file task: `records` and the
per-year counts. -/
structure FileStats where
  records : Nat
  years : List (Int × Nat)
deriving Inhabited

/-- Per-year counts of a bucket map (`stats['years'][year] =
len(records)` in dict iteration order). -/
def statsYears (bs : Buckets) : List (Int × Nat) :=
  bs.map (fun b => (b.1, b.2.length))

/-- Function `process_parquet_file` (lines 241-282) up to its statistics
value: buckets plus `stats` with `records = len(pmids)` and per-year
counts.  The parquet write itself is `writeBuckets` below. -/
def processParquetFile (input : List (Int × String)) : Except String (Buckets × FileStats) :=
  match processParquetRecords input [] with
  | .error e => .error e
  | .ok bs => .ok (bs, { records := input.length, years := statsYears bs })

/-- Record loop of `process_xml_file` (lines 236-245): extract each
`PubmedArticle` element; a `none` result is skipped (`if record:`),
otherwise the row is routed and `total_records` incremented. -/
def processXmlRecords : List XElem → Buckets → Nat → Buckets × Nat
  | [], bs, n => (bs, n)
  | e :: rest, bs, n =>
    match extract_article_fields e with
    | none => processXmlRecords rest bs n
    | some r => processXmlRecords rest (addRecord bs (routeKey r.Year) r) (n + 1)

/-- Function `process_xml_file` (lines 227-271) up to its statistics
value, over the stream of `PubmedArticle` elements. -/
def processXmlFile (elems : List XElem) : Buckets × FileStats :=
  let (bs, n) := processXmlRecords elems [] 0
  (bs, { records := n, years := statsYears bs })

/-- Python `year_totals[year] = year_totals.get(year, 0) + count`
preserving dict insertion order. -/
def bumpYear : List (Int × Nat) → Int → Nat → List (Int × Nat)
  | [], y, c => [(y, c)]
  | (k, n) :: rest, y, c =>
    if k = y then (k, n + c) :: rest else (k, n) :: bumpYear rest y c

/-- Fold one task's per-year counts into the running totals (lines
318-319 of `reprocess_parquet.py`). -/
def addYearCounts (yt : List (Int × Nat)) : List (Int × Nat) → List (Int × Nat)
  | [] => yt
  | (y, c) :: rest => addYearCounts (bumpYear yt y c) rest

/-- Aggregation loop of `main` (lines 313-319): failed tasks are caught
and skipped, successful ones add `records` to the total and merge their
per-year counts.  Completion order is nondeterministic in Python; the
totals are order-independent, and the fold is taken in list order. -/
def aggregateAux : List (Except String FileStats) → Nat → List (Int × Nat) → Nat × List (Int × Nat)
  | [], t, yt => (t, yt)
  | .error _ :: rest, t, yt => aggregateAux rest t yt
  | .ok s :: rest, t, yt => aggregateAux rest (t + s.records) (addYearCounts yt s.years)

/-- Run-level aggregation: total records and year distribution, the two
fields the Run Metadata file persists. -/
def aggregateResults (rs : List (Except String FileStats)) : Nat × List (Int × Nat) :=
  aggregateAux rs 0 []

/-- Sum of the counts of a year-distribution map. -/
def sumCounts : List (Int × Nat) → Nat
  | [] => 0
  | (_, c) :: rest => c + sumCounts rest

/-- On-disk output tree: content of each `year=<key>/<stem>.parquet`
file, keyed by (year, source-file stem).  Content is the row list the
columnar table is built from (the column arrays are a deterministic
function of it). -/
abbrev Store := List ((Int × String) × List Row)

/-- Content at a key, if that partition file exists. -/
def storeLookup : Store → Int × String → Option (List Row)
  | [], _ => none
  | (k, v) :: rest, key => if k = key then some v else storeLookup rest key

/-- Model of `pq.write_table(table, out_path)`: writing a partition file
overwrites any existing file at the same path wholesale. -/
def storeWrite : Store → Int × String → List Row → Store
  | [], key, v => [(key, v)]
  | (k, w) :: rest, key, v =>
    if k = key then (k, v) :: rest else (k, w) :: storeWrite rest key v

/-- Write loop of `process_parquet_file` (lines 263-280): one partition
file per bucket, under `year=<key>`, named after the input file. -/
def writeBuckets (st : Store) (fname : String) : Buckets → Store
  | [] => st
  | (k, rs) :: rest => writeBuckets (storeWrite st (k, fname) rs) fname rest

/-- One whole file task against the output tree: process the input and
write every bucket; an extraction error aborts the task before any write
(the buckets are fully built before the write loop starts). -/
def runParquetFileTask (st : Store) (fname : String) (input : List (Int × String)) : Store :=
  match processParquetFile input with
  | .error _ => st
  | .ok (bs, _) => writeBuckets st fname bs

/-- One whole XML file task against the output tree: stream the file's
article elements into buckets and write every bucket (the write loop of
`process_xml_file`, lines 249-271 of `download_and_process_baseline.py`;
`fname` models the output stem derived from the input file name at line
257). -/
def runXmlFileTask (st : Store) (fname : String) (elems : List XElem) : Store :=
  writeBuckets st fname (processXmlFile elems).1

/-- Specification-side reading of the DOI rule for the blob path: the
`#text` of the FIRST entry of the tagged-identifier list whose `@IdType`
tag equals `"doi"` (case-sensitive), empty string when none matches. -/
def doiSpecFirst (l : List JValue) : JValue :=
  match l.find? isDoiEntry with
  | some a => doiEntryText a
  | none => .str ""

/-- Specification-side reading of the DOI rule for the XML path: the text
of the FIRST `ArticleId` element whose `IdType` attribute equals `"doi"`
(case-sensitive), empty string when none matches. -/
def xmlDoiSpecFirst (elems : List XElem) : String :=
  match elems.find? isDoiXml with
  | some a => (a.text).getD ""
  | none => ""

/-- Count recorded for a year in a year-distribution map. -/
def lookupCount : List (Int × Nat) → Int → Option Nat
  | [], _ => none
  | (k, c) :: rest, y => if k = y then some c else lookupCount rest y

/-- Row produced by `extract_fields` on a given input, with the degraded
row as the (unreachable in witnesses) fallback for the error case; used to
name concrete result rows in witness statements. -/
def rowOf (pmid s : String) : Row :=
  match extract_fields pmid s with
  | .ok r => r
  | .error _ => degradedRow pmid s

/-- Row produced by `extract_article_fields` on a given element, default
row in the `none` case; used to name concrete result rows in witnesses. -/
def xmlRowOf (e : XElem) : Row :=
  match extract_article_fields e with
  | some r => r
  | none => degradedRow "" ""

/-- Concrete record for the C1 counterexample: a well-formed article
element with a numeric PMID. -/
def exC1 : XElem :=
  XElem.mk "PubmedArticle" [] none
    [XElem.mk "MedlineCitation" [] none [XElem.mk "PMID" [] (some "1") [] none] none] none

/-- C9 counterexample input: a record whose PMID text is `-5`. -/
def exC9 : XElem :=
  XElem.mk "PubmedArticle" [] none
    [XElem.mk "MedlineCitation" [] none [XElem.mk "PMID" [] (some "-5") [] none] none] none

/-- Concrete element with a non-numeric PMID text. -/
def exAbc : XElem :=
  XElem.mk "PubmedArticle" [] none
    [XElem.mk "MedlineCitation" [] none [XElem.mk "PMID" [] (some "abc") [] none] none] none

/-- Concrete element whose MedlineCitation has no PMID child. -/
def exNoPmid : XElem :=
  XElem.mk "PubmedArticle" [] none [XElem.mk "MedlineCitation" [] none [] none] none

/-- Blob for the C4 counterexample: explicit numeric `Year` of `"0"`
alongside `MedlineDate "1998 Jan-Feb"`. -/
def c4blob : String :=
  "\x7b\"MedlineCitation\": \x7b\"Article\": \x7b\"Journal\": \x7b\"JournalIssue\": \x7b\"PubDate\": \x7b\"Year\": \"0\", \"MedlineDate\": \"1998 Jan-Feb\"\x7d\x7d\x7d\x7d\x7d\x7d"

/-- PubDate fields of the C4 counterexample blob. -/
def c4pd0 : List (String × JValue) :=
  [("Year", JValue.str "0"), ("MedlineDate", JValue.str "1998 Jan-Feb")]

/-- Article fields of the C4 counterexample blob. -/
def c4af : List (String × JValue) :=
  [("Journal", JValue.obj [("JournalIssue", JValue.obj [("PubDate", JValue.obj c4pd0)])])]

/-- MedlineCitation fields of the C4 counterexample blob. -/
def c4mf : List (String × JValue) :=
  [("Article", JValue.obj c4af)]

/-- Top-level fields of the C4 counterexample blob. -/
def c4df : List (String × JValue) :=
  [("MedlineCitation", JValue.obj c4mf)]

/-- MedlineCitation element with `Year "0"` and a MedlineDate. -/
def exY0Med : XElem :=
  XElem.mk "MedlineCitation" [] none
    [XElem.mk "Article" [] none
      [XElem.mk "Journal" [] none
        [XElem.mk "JournalIssue" [] none
          [XElem.mk "PubDate" [] none
            [XElem.mk "Year" [] (some "0") [] none,
             XElem.mk "MedlineDate" [] (some "1998 Jan-Feb") [] none] none] none] none] none] none

/-- Article record wrapping `exY0Med`. -/
def exY0 : XElem :=
  XElem.mk "PubmedArticle" [] none [exY0Med] none

/-- Identifier list of the C5 witness: an uppercase-tagged entry (skipped
by case-sensitive matching) followed by two `doi` entries (first wins). -/
def c5ids : List JValue :=
  [JValue.obj [("@IdType", JValue.str "DOI"), ("#text", JValue.str "x")],
   JValue.obj [("@IdType", JValue.str "doi"), ("#text", JValue.str "10.1/a")],
   JValue.obj [("@IdType", JValue.str "doi"), ("#text", JValue.str "10.1/b")]]

/-- Blob for the C5 witness. -/
def c5blob : String :=
  "\x7b\"PubmedData\": \x7b\"ArticleIdList\": \x7b\"ArticleId\": [\x7b\"@IdType\": \"DOI\", \"#text\": \"x\"\x7d, \x7b\"@IdType\": \"doi\", \"#text\": \"10.1/a\"\x7d, \x7b\"@IdType\": \"doi\", \"#text\": \"10.1/b\"\x7d]\x7d\x7d\x7d"

/-- Top-level fields of the C5 witness blob. -/
def c5df : List (String × JValue) :=
  [("PubmedData", JValue.obj [("ArticleIdList", JValue.obj [("ArticleId", JValue.arr c5ids)])])]

/-- Identifier elements of the C5 XML witness. -/
def c5xmlIds : List XElem :=
  [XElem.mk "ArticleId" [("IdType", "DOI")] (some "x") [] none,
   XElem.mk "ArticleId" [("IdType", "doi")] (some "10.1/a") [] none,
   XElem.mk "ArticleId" [("IdType", "doi")] (some "10.1/b") [] none]

/-- Article record of the C5 XML witness. -/
def exC5 : XElem :=
  XElem.mk "PubmedArticle" [] none
    [XElem.mk "MedlineCitation" [] none [] none,
     XElem.mk "PubmedData" [] none [XElem.mk "ArticleIdList" [] none c5xmlIds none] none] none

/-- Every bucket holds only rows routed to its key. -/
def bucketsConsistent (bs : Buckets) : Prop :=
  ∀ k rs, (k, rs) ∈ bs → ∀ r ∈ rs, routeKey r.Year = k

/-- Per-file sum over succeeded tasks of the aggregation input. -/
def okRecords : List (Except String FileStats) → Nat
  | [] => 0
  | .error _ :: rest => okRecords rest
  | .ok s :: rest => s.records + okRecords rest

/-- Per-file sum of per-year counts over succeeded tasks. -/
def okYearsSum : List (Except String FileStats) → Nat
  | [] => 0
  | .error _ :: rest => okYearsSum rest
  | .ok s :: rest => sumCounts s.years + okYearsSum rest

/-- Concrete one-row input for the C6/C7 witnesses. -/
def c6input : List (Int × String) := [(1, "\x7b\x7d")]

/-- Buckets produced for `c6input`. -/
def c6buckets : Buckets :=
  match processParquetFile c6input with
  | .ok (bs, _) => bs
  | .error _ => []

/-- Statistics produced for `c6input`. -/
def c6stats : FileStats :=
  match processParquetFile c6input with
  | .ok (_, st) => st
  | .error _ => default

/-- Aggregation input for the C7 witness: one succeeded task and one
failed task. -/
def c7results : List (Except String FileStats) :=
  [Except.ok { records := 1, years := [(0, 1)] }, Except.error "boom"]

/-- Concrete input for the C10 witness: one undecodable blob. -/
def c10input : List (Int × String) := [(7, "nope")]

/-- Buckets produced for `c10input`. -/
def c10buckets : Buckets :=
  match processParquetFile c10input with
  | .ok (bs, _) => bs
  | .error _ => []

/-- Statistics produced for `c10input`. -/
def c10stats : FileStats :=
  match processParquetFile c10input with
  | .ok (_, st) => st
  | .error _ => default

/-- C1: For every Source Record processed by either extractor
(`extract_fields` or `extract_article_fields`), the `raw_blob`/`JSON`
field of the produced Flat Row equals the original serialized record
character for character.  AMENDED: this holds for every row the blob-path
`extract_fields` produces (normal and degraded branch alike); the XML-path
`extract_article_fields` instead fills `JSON` with a simplified
re-serialization of the ten extracted fields, not the original record
(see the counterexample). -/
theorem C1_raw_blob_verbatim (pmid s : String) (r : Row)
    (h : extract_fields pmid s = .ok r) : r.JSON = s := by
  unfold extract_fields at h
  split at h
  · cases h; rfl
  · unfold extract_fields_decoded at h
    repeat' split at h
    all_goals cases h
    all_goals rfl

/-- Witness for C1 at a concrete undecodable blob and a concrete decodable
blob. -/
theorem C1_raw_blob_verbatim_witness :
    (rowOf "1" "nope").JSON = "nope" ∧ (rowOf "123" "\x7b\x7d").JSON = "\x7b\x7d" :=
  ⟨C1_raw_blob_verbatim "1" "nope" (rowOf "1" "nope") rfl,
   C1_raw_blob_verbatim "123" "\x7b\x7d" (rowOf "123" "\x7b\x7d") rfl⟩

/-- C1 counterexample: the XML-path extractor produces a row, and its
`JSON` field is not the original serialized record — it is the simplified
re-serialization of the extracted fields. -/
theorem C1_counterexample :
    (extract_article_fields exC1).isSome = true ∧
    (extract_article_fields exC1).map Row.JSON ≠ some (serializeXElem exC1) := by
  exact ⟨rfl, by decide⟩

/-- C2 counterexample: the claim says the Field Extractor never raises a
fatal error for a single malformed record and never returns nothing.  A
blob that decodes to a JSON array (not a dict) makes `extract_fields`
raise an uncaught `AttributeError` (fatal to the whole file task), and an
element without `MedlineCitation` makes `extract_article_fields` return
`None`. -/
theorem C2_counterexample :
    extract_fields "1" "[1]" = .error "AttributeError: get" ∧
    extract_article_fields (XElem.mk "PubmedArticle" [] none [] none) = none :=
  ⟨rfl, rfl⟩

/-- C2: AMENDED.  On decode failure of the blob, `extract_fields` returns
exactly one degraded row — known identifier, null year, empty fields,
verbatim raw blob — and never drops the record; however the extractor can
raise a fatal error on a record whose blob decodes to an unexpected shape
(see the counterexample), and in the XML path a malformed record yields
`None`, which `process_xml_file` silently skips. -/
theorem C2_degraded_row_amended :
    (∀ pmid s, json_loads s = none →
      extract_fields pmid s = .ok (degradedRow pmid s) ∧
      (degradedRow pmid s).JSON = s ∧ (degradedRow pmid s).Year = none ∧
      (degradedRow pmid s).Title = .str "" ∧ (degradedRow pmid s).Abstract = "" ∧
      (degradedRow pmid s).DOI = .str "" ∧ (degradedRow pmid s).Authors = "") ∧
    (∀ e es bs n, extract_article_fields e = none →
      processXmlRecords (e :: es) bs n = processXmlRecords es bs n) := by
  constructor
  · intro pmid s h
    refine ⟨?_, rfl, rfl, rfl, rfl, rfl, rfl⟩
    unfold extract_fields
    rw [h]
  · intro e es bs n h
    simp only [processXmlRecords, h]

/-- Witness for C2 at a concrete undecodable blob and a concrete
malformed element. -/
theorem C2_degraded_row_amended_witness :
    extract_fields "12" "nope" = .ok (degradedRow "12" "nope") ∧
    processXmlRecords [XElem.mk "PubmedArticle" [] none [] none] [] 0 =
      processXmlRecords [] [] 0 :=
  ⟨(C2_degraded_row_amended.1 "12" "nope" rfl).1,
   C2_degraded_row_amended.2 (XElem.mk "PubmedArticle" [] none [] none) [] [] 0 rfl⟩

/-- Digits are not Python `int` whitespace. -/
theorem digit_not_pyWs (c : Char) (h : c.isDigit = true) : pyWs c = false := by
  by_contra hc
  have h2 : pyWs c = true := by simpa using hc
  unfold pyWs at h2
  simp only [Bool.or_eq_true, decide_eq_true_eq] at h2
  rcases h2 with ((((h1 | h1) | h1) | h1) | h1) | h1 <;> subst h1 <;>
    exact absurd h (by decide)

/-- An all-digit character list is untouched by whitespace stripping. -/
theorem dropWhile_pyWs_digits (l : List Char) (h : l.all Char.isDigit = true) :
    l.dropWhile pyWs = l := by
  cases l with
  | nil => rfl
  | cons c rest =>
    simp only [List.all_cons, Bool.and_eq_true] at h
    simp [List.dropWhile, digit_not_pyWs c h.1]

/-- Digit accumulation over an all-digit list. -/
theorem pudAux_digits (l : List Char) (acc : Nat) (h : l.all Char.isDigit = true) :
    pudAux l acc = some (l.foldl (fun a c => a * 10 + (c.toNat - 48)) acc) := by
  induction l generalizing acc with
  | nil => rfl
  | cons c rest ih =>
    simp only [List.all_cons, Bool.and_eq_true] at h
    unfold pudAux
    rw [if_pos h.1]
    simpa using ih _ h.2

/-- Python `int` on a digit string gives exactly the digit value. -/
theorem pyIntParse_digits (t : String) (h : isdigitStr t = true) :
    pyIntParse t = some (Int.ofNat (digitsNat t)) := by
  obtain ⟨l⟩ := t
  cases l with
  | nil => exact absurd h (by decide)
  | cons c rest =>
    have hlist : (c :: rest).all Char.isDigit = true := by
      have h2 : (!(String.mk (c :: rest)).isEmpty && (c :: rest).all Char.isDigit) = true := by
        simpa [isdigitStr] using h
      exact ((Bool.and_eq_true _ _).mp h2).2
    have hsplit := hlist
    rw [List.all_cons, Bool.and_eq_true] at hsplit
    have hc : c.isDigit = true := hsplit.1
    have hrest : rest.all Char.isDigit = true := hsplit.2
    have hrev : (c :: rest).reverse.all Char.isDigit = true := by
      rw [List.all_reverse]
      exact hlist
    have hcm : c ≠ '-' := by
      intro hcc; subst hcc; exact absurd hc (by decide)
    have hcp : c ≠ '+' := by
      intro hcc; subst hcc; exact absurd hc (by decide)
    have hP : parseUnderscoreDigits (c :: rest) = pudAux rest (c.toNat - 48) := by
      simp [parseUnderscoreDigits, hc]
    unfold pyIntParse
    simp only [String.data]
    rw [dropWhile_pyWs_digits _ hlist, dropWhile_pyWs_digits _ hrev, List.reverse_reverse]
    simp only [if_neg hcm, if_neg hcp, hP, pudAux_digits rest _ hrest]
    simp [digitsNat]

/-- Core characterization of a successful blob-path extraction: when the
blob decodes to a dict whose `MedlineCitation` is a dict (default: empty)
whose `Article` is a dict (default: empty) — which every successful
extraction requires — the identifier, year and DOI of the produced row
are exactly the values of the corresponding source blocks. -/
theorem extract_ok_core (pmid s : String) (df mf af : List (String × JValue)) (r : Row)
    (h1 : json_loads s = some (.obj df))
    (h2 : jGetD df "MedlineCitation" (.obj []) = .obj mf)
    (h3 : jGetD mf "Article" (.obj []) = .obj af)
    (h4 : extract_fields pmid s = .ok r) :
    r.PMID = pmidResolve pmid (safe_get (.obj mf) ["PMID", "#text"]) ∧
    yearFromPubDate (safe_get (.obj af) ["Journal", "JournalIssue", "PubDate"]) = .ok r.Year ∧
    r.DOI = doiFromArticleIds (safe_get (jGetD df "PubmedData" (.obj [])) ["ArticleIdList", "ArticleId"]) := by
  unfold extract_fields at h4
  rw [h1] at h4
  unfold extract_fields_decoded at h4
  simp only [pyGetAttrE] at h4
  rw [h2] at h4
  simp only [pyGetAttrE] at h4
  rw [h3] at h4
  simp only [pyGetAttrE] at h4
  repeat' split at h4
  all_goals cases h4
  all_goals exact ⟨rfl, by assumption, rfl⟩

/-- Identifier resolution of the blob path never yields a negative
value: it is a digit parse or 0. -/
theorem pmidResolve_nonneg (p : String) (v : JValue) : 0 ≤ pmidResolve p v := by
  show 0 ≤ (let pv := if jTruthy v then v else .str p;
    if isdigitStr (pyStr pv) = true then Int.ofNat (digitsNat (pyStr pv)) else 0)
  simp only []
  split <;> split
  all_goals exact Int.ofNat_nonneg _

/-- C9 counterexample: the XML-path extractor parses the PMID with a bare
`int()`, so a signed numeric text yields a negative identifier. -/
theorem C9_counterexample :
    (extract_article_fields exC9).map Row.PMID = some (-5) ∧ ¬(0 ≤ (-5 : Int)) := by
  exact ⟨rfl, by decide⟩

/-- C9: For every Source Record and every branch of either extractor, the
identifier of the produced Flat Row is non-negative.  AMENDED: this holds
unconditionally in the blob path (both the degraded and the normal
branch guard the parse with `str.isdigit`); in the XML path it holds
whenever the PMID element is absent, has no text, or has digit text — but
a signed numeric text such as `-5` passes `int()` and produces a negative
identifier (see the counterexample). -/
theorem C9_identifier_nonneg_amended :
    (∀ pmid s r, extract_fields pmid s = .ok r → 0 ≤ r.PMID) ∧
    (∀ e m r, e.findChild "MedlineCitation" = some m →
      extract_article_fields e = some r →
      (∀ pe, m.findChild "PMID" = some pe →
        ∀ t, pe.text = some t → t ≠ "" → isdigitStr t = true) →
      0 ≤ r.PMID) := by
  constructor
  · intro pmid s r h
    unfold extract_fields at h
    split at h
    · cases h
      unfold degradedRow
      split
      · exact Int.ofNat_nonneg _
      · exact le_refl 0
    · unfold extract_fields_decoded at h
      repeat' split at h
      all_goals cases h
      all_goals exact pmidResolve_nonneg _ _
  · intro e m r hm hr hguard
    unfold extract_article_fields at hr
    simp only [hm] at hr
    cases hp : m.findChild "PMID" with
    | none =>
      simp only [hp] at hr
      cases hr
      exact (le_refl (0 : Int) : (0 : Int) ≤ 0)
    | some pe =>
      simp only [hp] at hr
      cases ht : pe.text with
      | none =>
        simp only [ht] at hr
        cases hr
        exact (le_refl (0 : Int) : (0 : Int) ≤ 0)
      | some t =>
        simp only [ht] at hr
        by_cases hte : t = ""
        · rw [if_pos hte] at hr
          cases hr
          exact (le_refl (0 : Int) : (0 : Int) ≤ 0)
        · rw [if_neg hte] at hr
          have hd := hguard pe hp t ht hte
          rw [pyIntParse_digits t hd] at hr
          cases hr
          exact Int.ofNat_nonneg _

/-- Witness for C9 at a concrete blob and a concrete element. -/
theorem C9_identifier_nonneg_amended_witness :
    0 ≤ (rowOf "12" "nope").PMID ∧ 0 ≤ (xmlRowOf exC1).PMID :=
  ⟨C9_identifier_nonneg_amended.1 "12" "nope" (rowOf "12" "nope") rfl,
   C9_identifier_nonneg_amended.2 exC1
     (XElem.mk "MedlineCitation" [] none [XElem.mk "PMID" [] (some "1") [] none] none)
     (xmlRowOf exC1) rfl rfl
     (by intro pe hp t ht hte; cases hp; cases ht; decide)⟩

/-- C3 counterexample: for a blob whose identifier field is absent, the
claim says the extracted identifier is 0, but `extract_fields` falls back
to the enclosing PMID string `"123"` and extracts 123. -/
theorem C3_counterexample :
    (extract_fields "123" "\x7b\x7d").map Row.PMID = .ok 123 ∧ (123 : Int) ≠ 0 :=
  ⟨rfl, by decide⟩

/-- C3: For every Source Record whose identifier field is present with
numeric text, the extracted identifier equals that text parsed as an
integer exactly.  AMENDED for the fallback cases: in the blob path an
absent (falsy) identifier field falls back to the enclosing identifier
string — parsed when it is all digits, 0 otherwise — while a present
(truthy) but non-numeric identifier yields 0 without consulting the
enclosing string, and a row is still produced in both cases; in the XML
path an absent PMID element gives identifier 0 with a row still produced,
but non-numeric non-empty PMID text makes the extractor return no row at
all. -/
theorem C3_identifier_amended :
    (∀ pmid d, isdigitStr d = true → pmidResolve pmid (.str d) = Int.ofNat (digitsNat d)) ∧
    (∀ pmid v, jTruthy v = false →
      pmidResolve pmid v = (if isdigitStr pmid then Int.ofNat (digitsNat pmid) else 0)) ∧
    (∀ pmid v, jTruthy v = true → isdigitStr (pyStr v) = false →
      pmidResolve pmid v = 0) ∧
    (∀ pmid s df mf af r, json_loads s = some (.obj df) →
      jGetD df "MedlineCitation" (.obj []) = .obj mf →
      jGetD mf "Article" (.obj []) = .obj af →
      extract_fields pmid s = .ok r →
      r.PMID = pmidResolve pmid (safe_get (.obj mf) ["PMID", "#text"])) ∧
    (∀ e m pe t, XElem.findChild e "MedlineCitation" = some m →
      XElem.findChild m "PMID" = some pe → XElem.text pe = some t → t ≠ "" →
      isdigitStr t = true →
      (extract_article_fields e).map Row.PMID = some (Int.ofNat (digitsNat t))) ∧
    (∀ e m, XElem.findChild e "MedlineCitation" = some m →
      XElem.findChild m "PMID" = none →
      (extract_article_fields e).map Row.PMID = some 0) ∧
    (∀ e m pe t, XElem.findChild e "MedlineCitation" = some m →
      XElem.findChild m "PMID" = some pe → XElem.text pe = some t → t ≠ "" →
      pyIntParse t = none →
      extract_article_fields e = none) := by
  refine ⟨?_, ?_, ?_, ?_, ?_, ?_, ?_⟩
  · intro pmid d hd
    have h2 : d.isEmpty = false ∧ ∀ x ∈ d.data, x.isDigit = true := by
      simpa [isdigitStr] using hd
    simp [pmidResolve, pyStr, jTruthy, h2.1, hd]
  · intro pmid v h
    simp [pmidResolve, pyStr, h]
  · intro pmid v h1 h2
    simp [pmidResolve, h1, h2]
  · intro pmid s df mf af r h1 h2 h3 h4
    exact (extract_ok_core pmid s df mf af r h1 h2 h3 h4).1
  · intro e m pe t hm hp ht hte hd
    unfold extract_article_fields
    simp only [hm, hp, ht]
    rw [if_neg hte, pyIntParse_digits t hd]
    rfl
  · intro e m hm hp
    unfold extract_article_fields
    simp only [hm, hp]
    rfl
  · intro e m pe t hm hp ht hte hparse
    unfold extract_article_fields
    simp only [hm, hp, ht]
    rw [if_neg hte, hparse]

/-- Witness for C3 at concrete inputs exercising each amended branch,
including a present truthy non-numeric blob identifier resolving to 0. -/
theorem C3_identifier_amended_witness :
    pmidResolve "9" (JValue.str "77") = Int.ofNat (digitsNat "77") ∧
    pmidResolve "123" (JValue.str "") = (if isdigitStr "123" then Int.ofNat (digitsNat "123") else 0) ∧
    pmidResolve "123" (JValue.str "abc") = 0 ∧
    (rowOf "123" "\x7b\x7d").PMID = pmidResolve "123" (safe_get (.obj []) ["PMID", "#text"]) ∧
    (extract_article_fields exC1).map Row.PMID = some (Int.ofNat (digitsNat "1")) ∧
    (extract_article_fields exNoPmid).map Row.PMID = some 0 ∧
    extract_article_fields exAbc = none := by
  obtain ⟨h1, h2, h3, h4, h5, h6, h7⟩ := C3_identifier_amended
  exact ⟨h1 "9" "77" rfl,
    h2 "123" (JValue.str "") rfl,
    h3 "123" (JValue.str "abc") rfl rfl,
    h4 "123" "\x7b\x7d" [] [] [] (rowOf "123" "\x7b\x7d") rfl rfl rfl rfl,
    h5 exC1
      (XElem.mk "MedlineCitation" [] none [XElem.mk "PMID" [] (some "1") [] none] none)
      (XElem.mk "PMID" [] (some "1") [] none) "1" rfl rfl rfl (by decide) rfl,
    h6 exNoPmid (XElem.mk "MedlineCitation" [] none [] none) rfl rfl,
    h7 exAbc
      (XElem.mk "MedlineCitation" [] none [XElem.mk "PMID" [] (some "abc") [] none] none)
      (XElem.mk "PMID" [] (some "abc") [] none) "abc" rfl rfl rfl (by decide) rfl⟩

set_option maxRecDepth 8192 in
/-- C4 counterexample: the claim says a present numeric year field is
extracted as that integer with no fallback consulted; but a year parsing
to `0` is falsy in Python, so the blob path consults the `MedlineDate`
fallback and extracts 1998 instead of 0. -/
theorem C4_counterexample :
    (extract_fields "1" c4blob).map Row.Year = .ok (some 1998) ∧
    some (1998 : Int) ≠ some 0 :=
  ⟨rfl, by decide⟩

/-- C4: Year resolution order.  AMENDED: in both paths an explicit year
field parsing to a nonzero integer takes precedence and the free-text
fallback is not consulted; in the XML path this precedence extends to any
successfully parsed integer including 0, while in the blob path a parsed
year of 0 is treated as unresolved and still falls through to the
fallback (see the counterexample).  When the explicit year is absent or
non-numeric, the leading four digits of the free-text date field give
the year; when neither resolves the year is null, in both paths.  A
record with no Year field and MedlineDate `"1998 Jan-Feb"` extracts
year 1998. -/
theorem C4_year_amended :
    (∀ pd ys, jLookup pd "Year" = some ys → jTruthy ys = true →
      isdigitStr (pyStr ys) = true → digitsNat (pyStr ys) ≠ 0 →
      yearFromPubDate (.obj pd) = .ok (some (Int.ofNat (digitsNat (pyStr ys))))) ∧
    (∀ pd m, jLookup pd "Year" = none → jLookup pd "MedlineDate" = some (.str m) →
      m ≠ "" → m.length ≥ 4 → isdigitStr (String.mk (m.data.take 4)) = true →
      yearFromPubDate (.obj pd) = .ok (some (Int.ofNat (digitsNat (String.mk (m.data.take 4)))))) ∧
    (∀ pd ys m, jLookup pd "Year" = some ys → isdigitStr (pyStr ys) = false →
      jLookup pd "MedlineDate" = some (.str m) →
      m ≠ "" → m.length ≥ 4 → isdigitStr (String.mk (m.data.take 4)) = true →
      yearFromPubDate (.obj pd) = .ok (some (Int.ofNat (digitsNat (String.mk (m.data.take 4)))))) ∧
    (∀ pd, jLookup pd "Year" = none → jLookup pd "MedlineDate" = none →
      yearFromPubDate (.obj pd) = .ok none) ∧
    (∀ pd ys, jLookup pd "Year" = some ys → isdigitStr (pyStr ys) = false →
      jLookup pd "MedlineDate" = none →
      yearFromPubDate (.obj pd) = .ok none) ∧
    (∀ pmid s df mf af r, json_loads s = some (.obj df) →
      jGetD df "MedlineCitation" (.obj []) = .obj mf →
      jGetD mf "Article" (.obj []) = .obj af →
      extract_fields pmid s = .ok r →
      yearFromPubDate (safe_get (.obj af) ["Journal", "JournalIssue", "PubDate"]) = .ok r.Year) ∧
    (∀ pd ye t v, XElem.findChild pd "Year" = some ye → XElem.text ye = some t → t ≠ "" →
      pyIntParse t = some v → yearFromPubDateXml pd = some v) ∧
    (∀ pd mde t, XElem.findChild pd "Year" = none → XElem.findChild pd "MedlineDate" = some mde →
      XElem.text mde = some t → t ≠ "" → t.length ≥ 4 →
      isdigitStr (String.mk (t.data.take 4)) = true →
      yearFromPubDateXml pd = some (Int.ofNat (digitsNat (String.mk (t.data.take 4))))) ∧
    (∀ pd ye t mde u, XElem.findChild pd "Year" = some ye → XElem.text ye = some t → t ≠ "" →
      pyIntParse t = none →
      XElem.findChild pd "MedlineDate" = some mde → XElem.text mde = some u → u ≠ "" →
      u.length ≥ 4 → isdigitStr (String.mk (u.data.take 4)) = true →
      yearFromPubDateXml pd = some (Int.ofNat (digitsNat (String.mk (u.data.take 4))))) ∧
    (∀ pd, XElem.findChild pd "Year" = none → XElem.findChild pd "MedlineDate" = none →
      yearFromPubDateXml pd = none) ∧
    (∀ pd ye t, XElem.findChild pd "Year" = some ye → XElem.text ye = some t → t ≠ "" →
      pyIntParse t = none → XElem.findChild pd "MedlineDate" = none →
      yearFromPubDateXml pd = none) ∧
    (∀ e m r, XElem.findChild e "MedlineCitation" = some m →
      extract_article_fields e = some r →
      r.Year = xmlYearOf (XElem.findChild m "Article")) := by
  refine ⟨?_, ?_, ?_, ?_, ?_, ?_, ?_, ?_, ?_, ?_, ?_, ?_⟩
  · intro pd ys hY htr hdig hnz
    have hval : Int.ofNat (digitsNat (pyStr ys)) ≠ 0 := by
      simpa [Int.ofNat_eq_zero] using hnz
    have he : yearExplicit pd = some (Int.ofNat (digitsNat (pyStr ys))) := by
      unfold yearExplicit
      simp [jGetD, hY, htr, hdig]
    simp only [yearFromPubDate, he]
    simp only [decide_not]
    simp [hval]
    intro h0
    exact absurd h0 hnz
  · intro pd m hY hMD hm0 hlen hdig4
    have hnem : m.isEmpty = false := by
      rw [Bool.eq_false_iff]
      intro hemp
      exact hm0 ((String.isEmpty_iff m).mp hemp)
    have he : yearExplicit pd = none := by
      unfold yearExplicit
      simp only [jGetD, hY]
      decide
    have hf : yearFallback pd none =
        .ok (some (Int.ofNat (digitsNat (String.mk (m.data.take 4))))) := by
      unfold yearFallback
      simp [jGetD, hMD, jTruthy, hnem, hlen, hdig4]
    simp only [yearFromPubDate, he]
    simpa using hf
  · intro pd ys m hY hdig hMD hm0 hlen hdig4
    have hnem : m.isEmpty = false := by
      rw [Bool.eq_false_iff]
      intro hemp
      exact hm0 ((String.isEmpty_iff m).mp hemp)
    have he : yearExplicit pd = none := by
      unfold yearExplicit
      simp [jGetD, hY, hdig]
    have hf : yearFallback pd none =
        .ok (some (Int.ofNat (digitsNat (String.mk (m.data.take 4))))) := by
      unfold yearFallback
      simp [jGetD, hMD, jTruthy, hnem, hlen, hdig4]
    simp only [yearFromPubDate, he]
    simpa using hf
  · intro pd hY hMD
    have he : yearExplicit pd = none := by
      unfold yearExplicit
      simp only [jGetD, hY]
      decide
    have hf : yearFallback pd none = .ok none := by
      unfold yearFallback
      simp only [jGetD, hMD]
      rfl
    simp only [yearFromPubDate, he]
    simpa using hf
  · intro pd ys hY hdig hMD
    have he : yearExplicit pd = none := by
      unfold yearExplicit
      simp [jGetD, hY, hdig]
    have hf : yearFallback pd none = .ok none := by
      unfold yearFallback
      simp only [jGetD, hMD]
      rfl
    simp only [yearFromPubDate, he]
    simpa using hf
  · intro pmid s df mf af r h1 h2 h3 h4
    exact (extract_ok_core pmid s df mf af r h1 h2 h3 h4).2.1
  · intro pd ye t v hY ht hte hv
    unfold yearFromPubDateXml
    simp only [hY, ht]
    rw [if_neg hte, hv]
  · intro pd mde t hY hMD ht hte hlen hdig4
    unfold yearFromPubDateXml
    simp only [hY, hMD, ht]
    rw [if_pos ⟨hte, hlen, hdig4⟩]
  · intro pd ye t mde u hY ht hte hPI hMD htu hu0 hulen hudig
    unfold yearFromPubDateXml
    simp only [hY, ht, hMD, htu]
    rw [if_neg hte, hPI]
    rw [if_pos ⟨hu0, hulen, hudig⟩]
  · intro pd hY hMD
    unfold yearFromPubDateXml
    simp only [hY, hMD]
  · intro pd ye t hY ht hte hPI hMD
    unfold yearFromPubDateXml
    simp only [hY, ht, hMD]
    rw [if_neg hte, hPI]
  · intro e m r hm hr
    unfold extract_article_fields at hr
    simp only [hm] at hr
    cases hp : m.findChild "PMID" with
    | none =>
      simp only [hp] at hr
      cases hr
      rfl
    | some pe =>
      simp only [hp] at hr
      cases ht : pe.text with
      | none =>
        simp only [ht] at hr
        cases hr
        rfl
      | some t =>
        simp only [ht] at hr
        by_cases hte : t = ""
        · rw [if_pos hte] at hr
          cases hr
          rfl
        · rw [if_neg hte] at hr
          cases hv : pyIntParse t with
          | none =>
            rw [hv] at hr
            cases hr
          | some v =>
            rw [hv] at hr
            cases hr
            rfl

set_option maxRecDepth 8192 in
/-- Witness for C4 at concrete inputs exercising each amended branch,
including a present non-numeric year falling through to the fallback and
the null outcome when neither source resolves, in both paths. -/
theorem C4_year_amended_witness :
    yearFromPubDate (.obj [("Year", JValue.str "2015")]) = .ok (some 2015) ∧
    yearFromPubDate (.obj [("MedlineDate", JValue.str "1998 Jan-Feb")]) = .ok (some 1998) ∧
    yearFromPubDate (.obj [("Year", JValue.str "abc"), ("MedlineDate", JValue.str "1998 Jan-Feb")]) =
      .ok (some 1998) ∧
    yearFromPubDate (.obj []) = .ok none ∧
    yearFromPubDate (.obj [("Year", JValue.str "abc")]) = .ok none ∧
    yearFromPubDate (safe_get (.obj c4af) ["Journal", "JournalIssue", "PubDate"]) =
      .ok ((rowOf "1" c4blob).Year) ∧
    yearFromPubDateXml (XElem.mk "PubDate" [] none [XElem.mk "Year" [] (some "0") [] none] none) =
      some 0 ∧
    yearFromPubDateXml (XElem.mk "PubDate" [] none
      [XElem.mk "MedlineDate" [] (some "1998 Jan-Feb") [] none] none) = some 1998 ∧
    yearFromPubDateXml (XElem.mk "PubDate" [] none
      [XElem.mk "Year" [] (some "abc") [] none,
       XElem.mk "MedlineDate" [] (some "1998 Jan-Feb") [] none] none) = some 1998 ∧
    yearFromPubDateXml (XElem.mk "PubDate" [] none [] none) = none ∧
    yearFromPubDateXml (XElem.mk "PubDate" [] none
      [XElem.mk "Year" [] (some "abc") [] none] none) = none ∧
    (xmlRowOf exY0).Year = xmlYearOf (XElem.findChild exY0Med "Article") := by
  obtain ⟨h1, h2, h3, h4, h5, h6, h7, h8, h9, h10, h11, h12⟩ := C4_year_amended
  exact ⟨(h1 [("Year", JValue.str "2015")] (JValue.str "2015")
      rfl (by decide) (by decide) (by decide)).trans rfl,
    (h2 [("MedlineDate", JValue.str "1998 Jan-Feb")] "1998 Jan-Feb"
      rfl rfl (by decide) (by decide) (by decide)).trans rfl,
    (h3 [("Year", JValue.str "abc"), ("MedlineDate", JValue.str "1998 Jan-Feb")]
      (JValue.str "abc") "1998 Jan-Feb"
      rfl (by decide) rfl (by decide) (by decide) (by decide)).trans rfl,
    h4 [] rfl rfl,
    h5 [("Year", JValue.str "abc")] (JValue.str "abc") rfl (by decide) rfl,
    h6 "1" c4blob c4df c4mf c4af (rowOf "1" c4blob) rfl rfl rfl rfl,
    h7 (XElem.mk "PubDate" [] none [XElem.mk "Year" [] (some "0") [] none] none)
      (XElem.mk "Year" [] (some "0") [] none) "0" 0 rfl rfl (by decide) rfl,
    (h8 (XElem.mk "PubDate" [] none
      [XElem.mk "MedlineDate" [] (some "1998 Jan-Feb") [] none] none)
      (XElem.mk "MedlineDate" [] (some "1998 Jan-Feb") [] none) "1998 Jan-Feb"
      rfl rfl rfl (by decide) (by decide) (by decide)).trans rfl,
    (h9 (XElem.mk "PubDate" [] none
      [XElem.mk "Year" [] (some "abc") [] none,
       XElem.mk "MedlineDate" [] (some "1998 Jan-Feb") [] none] none)
      (XElem.mk "Year" [] (some "abc") [] none) "abc"
      (XElem.mk "MedlineDate" [] (some "1998 Jan-Feb") [] none) "1998 Jan-Feb"
      rfl rfl (by decide) rfl rfl rfl (by decide) (by decide) (by decide)).trans rfl,
    h10 (XElem.mk "PubDate" [] none [] none) rfl rfl,
    h11 (XElem.mk "PubDate" [] none [XElem.mk "Year" [] (some "abc") [] none] none)
      (XElem.mk "Year" [] (some "abc") [] none) "abc" rfl rfl (by decide) rfl rfl,
    h12 exY0 exY0Med (xmlRowOf exY0) rfl rfl⟩

/-- The break-at-first-match loop computes the first-match
specification. -/
theorem doiLoop_eq_specFirst (l : List JValue) : doiLoop l = doiSpecFirst l := by
  induction l with
  | nil => rfl
  | cons a rest ih =>
    by_cases hp : isDoiEntry a = true
    · simp [doiLoop, doiSpecFirst, List.find?_cons_of_pos, hp]
    · have hloop : doiLoop (a :: rest) = doiLoop rest := by
        simp only [doiLoop, if_neg hp]
      rw [hloop, ih]
      unfold doiSpecFirst
      rw [List.find?_cons_of_neg _ hp]

/-- The XML break-at-first-match loop computes the first-match
specification. -/
theorem doiXmlLoop_eq_specFirst (l : List XElem) : doiXmlLoop l = xmlDoiSpecFirst l := by
  induction l with
  | nil => rfl
  | cons a rest ih =>
    by_cases hp : isDoiXml a = true
    · simp [doiXmlLoop, xmlDoiSpecFirst, List.find?_cons_of_pos, hp]
    · have hloop : doiXmlLoop (a :: rest) = doiXmlLoop rest := by
        simp only [doiXmlLoop, if_neg hp]
      rw [hloop, ih]
      unfold xmlDoiSpecFirst
      rw [List.find?_cons_of_neg _ hp]

/-- C5: For every Source Record, the extracted `external_id` (DOI) equals
the text of the first identifier in the record's tagged-identifier list
whose type tag equals `"doi"` under case-sensitive comparison (iteration
stops at the first match), and equals the empty string when no identifier
matches; identically in both extraction paths.  CONFIRMED: both loops
`break` at the first case-sensitively matching entry. -/
theorem C5_doi_first_match :
    (∀ l, doiFromArticleIds (.arr l) = doiSpecFirst l) ∧
    (∀ pmid s df mf af r, json_loads s = some (.obj df) →
      jGetD df "MedlineCitation" (.obj []) = .obj mf →
      jGetD mf "Article" (.obj []) = .obj af →
      extract_fields pmid s = .ok r →
      r.DOI = doiFromArticleIds (safe_get (jGetD df "PubmedData" (.obj []))
        ["ArticleIdList", "ArticleId"])) ∧
    (∀ elems, doiXmlLoop elems = xmlDoiSpecFirst elems) ∧
    (∀ e m r, XElem.findChild e "MedlineCitation" = some m →
      extract_article_fields e = some r →
      r.DOI = .str (match XElem.findChild e "PubmedData" with
        | none => ""
        | some pd => doiXmlLoop (findAllDesc pd "ArticleId"))) := by
  refine ⟨?_, ?_, ?_, ?_⟩
  · intro l
    cases l with
    | nil => rfl
    | cons a rest =>
      have h : doiFromArticleIds (.arr (a :: rest)) = doiLoop (a :: rest) := by
        simp [doiFromArticleIds, jTruthy]
      rw [h]
      exact doiLoop_eq_specFirst _
  · intro pmid s df mf af r h1 h2 h3 h4
    exact (extract_ok_core pmid s df mf af r h1 h2 h3 h4).2.2
  · intro elems
    exact doiXmlLoop_eq_specFirst elems
  · intro e m r hm hr
    unfold extract_article_fields at hr
    simp only [hm] at hr
    cases hp : m.findChild "PMID" with
    | none =>
      simp only [hp] at hr
      cases hr
      rfl
    | some pe =>
      simp only [hp] at hr
      cases ht : pe.text with
      | none =>
        simp only [ht] at hr
        cases hr
        rfl
      | some t =>
        simp only [ht] at hr
        by_cases hte : t = ""
        · rw [if_pos hte] at hr
          cases hr
          rfl
        · rw [if_neg hte] at hr
          cases hv : pyIntParse t with
          | none =>
            rw [hv] at hr
            cases hr
          | some v =>
            rw [hv] at hr
            cases hr
            rfl

set_option maxRecDepth 8192 in
/-- Witness for C5: the first case-sensitively matching identifier wins
in both paths, concretely `10.1/a` rather than `x` or `10.1/b`. -/
theorem C5_doi_first_match_witness :
    doiFromArticleIds (.arr c5ids) = doiSpecFirst c5ids ∧
    (rowOf "1" c5blob).DOI = doiFromArticleIds (safe_get (jGetD c5df "PubmedData" (.obj []))
      ["ArticleIdList", "ArticleId"]) ∧
    doiXmlLoop c5xmlIds = xmlDoiSpecFirst c5xmlIds ∧
    (xmlRowOf exC5).DOI = .str (match XElem.findChild exC5 "PubmedData" with
      | none => ""
      | some pd => doiXmlLoop (findAllDesc pd "ArticleId")) ∧
    doiSpecFirst c5ids = .str "10.1/a" ∧
    xmlDoiSpecFirst c5xmlIds = "10.1/a" :=
  ⟨C5_doi_first_match.1 c5ids,
   C5_doi_first_match.2.1 "1" c5blob c5df [] [] (rowOf "1" c5blob) rfl rfl rfl rfl,
   C5_doi_first_match.2.2.1 c5xmlIds,
   C5_doi_first_match.2.2.2 exC5 (XElem.mk "MedlineCitation" [] none [] none)
     (xmlRowOf exC5) rfl rfl,
   rfl, rfl⟩

/-- Membership in bucket keys after an append. -/
theorem mem_bucketKeys_addRecord (bs : Buckets) (k : Int) (r : Row) (k' : Int) :
    k' ∈ bucketKeys (addRecord bs k r) ↔ k' ∈ bucketKeys bs ∨ k' = k := by
  induction bs with
  | nil => simp [addRecord, bucketKeys]
  | cons b rest ih =>
    obtain ⟨k0, rs0⟩ := b
    by_cases hk : k0 = k
    · subst hk
      simp [addRecord, bucketKeys]
      tauto
    · simp only [addRecord, if_neg hk, bucketKeys, List.map_cons, List.mem_cons] at ih ⊢
      rw [ih]
      tauto

/-- Appending a row preserves distinctness of bucket keys. -/
theorem nodup_bucketKeys_addRecord (bs : Buckets) (k : Int) (r : Row)
    (h : (bucketKeys bs).Nodup) : (bucketKeys (addRecord bs k r)).Nodup := by
  induction bs with
  | nil => simp [addRecord, bucketKeys]
  | cons b rest ih =>
    obtain ⟨k0, rs0⟩ := b
    simp only [bucketKeys, List.map_cons, List.nodup_cons] at h
    by_cases hk : k0 = k
    · subst hk
      simpa [addRecord, bucketKeys, List.nodup_cons] using h
    · simp only [addRecord, if_neg hk, bucketKeys, List.map_cons, List.nodup_cons]
      refine ⟨?_, ih h.2⟩
      intro hmem
      rcases (mem_bucketKeys_addRecord rest k r k0).mp hmem with hold | heq
      · exact h.1 hold
      · exact hk heq

/-- The appended row lands at the end of its own bucket. -/
theorem bucketOf_addRecord_self (bs : Buckets) (k : Int) (r : Row) :
    bucketOf (addRecord bs k r) k = bucketOf bs k ++ [r] := by
  induction bs with
  | nil => simp [addRecord, bucketOf]
  | cons b rest ih =>
    obtain ⟨k0, rs0⟩ := b
    by_cases hk : k0 = k
    · subst hk
      simp [addRecord, bucketOf]
    · simp [addRecord, bucketOf, if_neg hk, ih]

/-- Other buckets are untouched by an append. -/
theorem bucketOf_addRecord_other (bs : Buckets) (k : Int) (r : Row) (k' : Int)
    (h : k' ≠ k) : bucketOf (addRecord bs k r) k' = bucketOf bs k' := by
  induction bs with
  | nil =>
    simp only [addRecord, bucketOf]
    rw [if_neg (fun hh => h hh.symm)]
  | cons b rest ih =>
    obtain ⟨k0, rs0⟩ := b
    by_cases hk : k0 = k
    · subst hk
      rw [show addRecord ((k0, rs0) :: rest) k0 r = (k0, rs0 ++ [r]) :: rest from by
        simp [addRecord]]
      simp only [bucketOf]
      rw [if_neg (fun hh => h (hh.symm.trans rfl)), if_neg (fun hh => h (hh.symm.trans rfl))]
    · rw [show addRecord ((k0, rs0) :: rest) k r = (k0, rs0) :: addRecord rest k r from by
        simp [addRecord, hk]]
      by_cases hk0 : k0 = k'
      · subst hk0
        simp [bucketOf]
      · simp only [bucketOf, if_neg hk0]
        exact ih

/-- An append grows the total row count by one. -/
theorem sumSizes_addRecord (bs : Buckets) (k : Int) (r : Row) :
    sumSizes (addRecord bs k r) = sumSizes bs + 1 := by
  induction bs with
  | nil => simp [addRecord, sumSizes]
  | cons b rest ih =>
    obtain ⟨k0, rs0⟩ := b
    by_cases hk : k0 = k
    · subst hk
      rw [show addRecord ((k0, rs0) :: rest) k0 r = (k0, rs0 ++ [r]) :: rest from by
        simp [addRecord]]
      simp [sumSizes]
      omega
    · rw [show addRecord ((k0, rs0) :: rest) k r = (k0, rs0) :: addRecord rest k r from by
        simp [addRecord, hk]]
      simp [sumSizes, ih]
      omega

/-- Appending a correctly-routed row preserves bucket consistency. -/
theorem bucketsConsistent_addRecord (bs : Buckets) (k : Int) (r : Row)
    (h : bucketsConsistent bs) (hr : routeKey r.Year = k) :
    bucketsConsistent (addRecord bs k r) := by
  induction bs with
  | nil =>
    intro k0 rs0 hmem r0 hr0
    simp only [addRecord, List.mem_singleton] at hmem
    injection hmem with h1 h2
    subst h1; subst h2
    simp only [List.mem_singleton] at hr0
    subst hr0
    exact hr
  | cons b rest ih =>
    obtain ⟨k1, rs1⟩ := b
    have hrest : bucketsConsistent rest := fun a bb hab c hc =>
      h a bb (List.mem_cons_of_mem _ hab) c hc
    by_cases hk : k1 = k
    · subst hk
      intro k0 rs0 hmem r0 hr0
      rw [show addRecord ((k1, rs1) :: rest) k1 r = (k1, rs1 ++ [r]) :: rest from by
        simp [addRecord]] at hmem
      rcases List.mem_cons.mp hmem with heq2 | htail
      · injection heq2 with h1 h2
        subst h1; subst h2
        rcases List.mem_append.mp hr0 with hin | hin
        · exact h k0 rs1 (List.mem_cons_self _ _) r0 hin
        · simp only [List.mem_singleton] at hin
          subst hin
          exact hr
      · exact h k0 rs0 (List.mem_cons_of_mem _ htail) r0 hr0
    · intro k0 rs0 hmem r0 hr0
      rw [show addRecord ((k1, rs1) :: rest) k r = (k1, rs1) :: addRecord rest k r from by
        simp [addRecord, hk]] at hmem
      rcases List.mem_cons.mp hmem with heq2 | htail
      · injection heq2 with h1 h2
        subst h1; subst h2
        exact h k0 rs0 (List.mem_cons_self _ _) r0 hr0
      · exact ih hrest k0 rs0 htail r0 hr0

/-- The record loop appends exactly one row per input pair. -/
theorem ppr_sumSizes (input : List (Int × String)) :
    ∀ bs bs', processParquetRecords input bs = .ok bs' →
      sumSizes bs' = sumSizes bs + input.length := by
  induction input with
  | nil =>
    intro bs bs' h
    cases h
    simp
  | cons p rest ih =>
    intro bs bs' h
    obtain ⟨pm, js⟩ := p
    unfold processParquetRecords at h
    cases hex : extract_fields (intToString pm) js with
    | error e =>
      rw [hex] at h
      cases h
    | ok r =>
      rw [hex] at h
      have h2 := ih _ _ h
      rw [sumSizes_addRecord] at h2
      simp only [List.length_cons]
      omega

/-- The record loop preserves distinctness of bucket keys. -/
theorem ppr_nodup (input : List (Int × String)) :
    ∀ bs bs', processParquetRecords input bs = .ok bs' →
      (bucketKeys bs).Nodup → (bucketKeys bs').Nodup := by
  induction input with
  | nil =>
    intro bs bs' h h0
    cases h
    exact h0
  | cons p rest ih =>
    intro bs bs' h h0
    obtain ⟨pm, js⟩ := p
    unfold processParquetRecords at h
    cases hex : extract_fields (intToString pm) js with
    | error e =>
      rw [hex] at h
      cases h
    | ok r =>
      rw [hex] at h
      exact ih _ _ h (nodup_bucketKeys_addRecord _ _ _ h0)

/-- The record loop preserves bucket consistency. -/
theorem ppr_consistent (input : List (Int × String)) :
    ∀ bs bs', processParquetRecords input bs = .ok bs' →
      bucketsConsistent bs → bucketsConsistent bs' := by
  induction input with
  | nil =>
    intro bs bs' h h0
    cases h
    exact h0
  | cons p rest ih =>
    intro bs bs' h h0
    obtain ⟨pm, js⟩ := p
    unfold processParquetRecords at h
    cases hex : extract_fields (intToString pm) js with
    | error e =>
      rw [hex] at h
      cases h
    | ok r =>
      rw [hex] at h
      exact ih _ _ h (bucketsConsistent_addRecord _ _ _ h0 rfl)

/-- Rows already in a bucket stay there through the rest of the loop. -/
theorem ppr_bucket_mono (input : List (Int × String)) :
    ∀ bs bs', processParquetRecords input bs = .ok bs' →
      ∀ k r, r ∈ bucketOf bs k → r ∈ bucketOf bs' k := by
  induction input with
  | nil =>
    intro bs bs' h k r hr
    cases h
    exact hr
  | cons p rest ih =>
    intro bs bs' h k r hr
    obtain ⟨pm, js⟩ := p
    unfold processParquetRecords at h
    cases hex : extract_fields (intToString pm) js with
    | error e =>
      rw [hex] at h
      cases h
    | ok r0 =>
      rw [hex] at h
      refine ih _ _ h k r ?_
      by_cases hk : k = routeKey r0.Year
      · subst hk
        rw [bucketOf_addRecord_self]
        exact List.mem_append_left _ hr
      · rw [bucketOf_addRecord_other _ _ _ _ hk]
        exact hr

/-- Every input pair whose extraction succeeds ends up in the bucket of
its row's routing key. -/
theorem ppr_mem (input : List (Int × String)) :
    ∀ bs bs', processParquetRecords input bs = .ok bs' →
      ∀ pm js r, (pm, js) ∈ input → extract_fields (intToString pm) js = .ok r →
        r ∈ bucketOf bs' (routeKey r.Year) := by
  induction input with
  | nil =>
    intro bs bs' h pm js r hin
    simp at hin
  | cons p rest ih =>
    intro bs bs' h pm js r hin hex
    obtain ⟨pm0, js0⟩ := p
    unfold processParquetRecords at h
    cases hex0 : extract_fields (intToString pm0) js0 with
    | error e =>
      rw [hex0] at h
      cases h
    | ok r0 =>
      rw [hex0] at h
      rcases List.mem_cons.mp hin with heq2 | htail
      · injection heq2 with h1 h2
        subst h1; subst h2
        rw [hex] at hex0
        injection hex0 with h3
        subst h3
        have hmem0 : r ∈ bucketOf (addRecord bs (routeKey r.Year) r) (routeKey r.Year) := by
          rw [bucketOf_addRecord_self]
          simp
        exact ppr_bucket_mono rest _ _ h _ _ hmem0
      · exact ih _ _ h pm js r htail hex

/-- Count/size balance of the XML record loop. -/
theorem pxr_sumSizes (elems : List XElem) :
    ∀ bs n, sumSizes (processXmlRecords elems bs n).1 + n =
      sumSizes bs + (processXmlRecords elems bs n).2 := by
  induction elems with
  | nil =>
    intro bs n
    rfl
  | cons e rest ih =>
    intro bs n
    cases hex : extract_article_fields e with
    | none =>
      rw [show processXmlRecords (e :: rest) bs n = processXmlRecords rest bs n from by
        simp only [processXmlRecords]; rw [hex]]
      exact ih bs n
    | some r =>
      rw [show processXmlRecords (e :: rest) bs n =
          processXmlRecords rest (addRecord bs (routeKey r.Year) r) (n + 1) from by
        simp only [processXmlRecords]; rw [hex]]
      have h2 := ih (addRecord bs (routeKey r.Year) r) (n + 1)
      rw [sumSizes_addRecord] at h2
      omega

/-- The XML record loop preserves distinctness of bucket keys. -/
theorem pxr_nodup (elems : List XElem) :
    ∀ bs n, (bucketKeys bs).Nodup →
      (bucketKeys (processXmlRecords elems bs n).1).Nodup := by
  induction elems with
  | nil =>
    intro bs n h0
    exact h0
  | cons e rest ih =>
    intro bs n h0
    unfold processXmlRecords
    cases hex : extract_article_fields e with
    | none => exact ih bs n h0
    | some r => exact ih _ _ (nodup_bucketKeys_addRecord _ _ _ h0)

/-- The XML record loop preserves bucket consistency. -/
theorem pxr_consistent (elems : List XElem) :
    ∀ bs n, bucketsConsistent bs →
      bucketsConsistent (processXmlRecords elems bs n).1 := by
  induction elems with
  | nil =>
    intro bs n h0
    exact h0
  | cons e rest ih =>
    intro bs n h0
    unfold processXmlRecords
    cases hex : extract_article_fields e with
    | none => exact ih bs n h0
    | some r => exact ih _ _ (bucketsConsistent_addRecord _ _ _ h0 rfl)

/-- The XML record count equals the number of elements whose extraction
produced a row. -/
theorem pxr_count (elems : List XElem) :
    ∀ bs n, (processXmlRecords elems bs n).2 =
      n + (elems.filter (fun e => (extract_article_fields e).isSome)).length := by
  induction elems with
  | nil =>
    intro bs n
    simp [processXmlRecords]
  | cons e rest ih =>
    intro bs n
    unfold processXmlRecords
    cases hex : extract_article_fields e with
    | none =>
      rw [ih bs n]
      simp [List.filter_cons, hex]
    | some r =>
      rw [ih (addRecord bs (routeKey r.Year) r) (n + 1)]
      simp [List.filter_cons, hex]
      omega

/-- C6: Every Flat Row accepted by the Partition Router is appended to
exactly one in-memory bucket whose key is the row's year, with sentinel
key 0 for a null year; no row is silently dropped for lacking a year.
CONFIRMED: bucket keys are distinct, every bucket holds exactly the rows
routed to its key, and the bucket sizes sum to the full input count (in
the XML path, to the count of rows the extractor produced). -/
theorem C6_partition_routing :
    (∀ input bs stats, processParquetFile input = .ok (bs, stats) →
      (bucketKeys bs).Nodup ∧
      (∀ k rs, (k, rs) ∈ bs → ∀ r ∈ rs, routeKey r.Year = k) ∧
      sumSizes bs = input.length ∧ routeKey none = 0) ∧
    (∀ elems : List XElem,
      (bucketKeys (processXmlFile elems).1).Nodup ∧
      (∀ k rs, (k, rs) ∈ (processXmlFile elems).1 → ∀ r ∈ rs, routeKey r.Year = k) ∧
      sumSizes (processXmlFile elems).1 = (processXmlFile elems).2.records) := by
  constructor
  · intro input bs stats h
    unfold processParquetFile at h
    cases hp : processParquetRecords input [] with
    | error e =>
      rw [hp] at h
      cases h
    | ok bs0 =>
      rw [hp] at h
      cases h
      refine ⟨ppr_nodup input [] _ hp (by simp [bucketKeys]), ?_, ?_, rfl⟩
      · exact ppr_consistent input [] _ hp (fun k rs hmem => absurd hmem (by simp))
      · have h2 := ppr_sumSizes input [] _ hp
        simpa [sumSizes] using h2
  · intro elems
    refine ⟨?_, ?_, ?_⟩
    · exact pxr_nodup elems [] 0 (by simp [bucketKeys])
    · exact pxr_consistent elems [] 0 (fun k rs hmem => absurd hmem (by simp))
    · have h2 := pxr_sumSizes elems [] 0
      unfold processXmlFile
      simp only []
      simpa [sumSizes] using h2

/-- Per-year counts of a bucket map sum to the total bucket size. -/
theorem sumCounts_statsYears (bs : Buckets) : sumCounts (statsYears bs) = sumSizes bs := by
  induction bs with
  | nil => rfl
  | cons b rest ih =>
    obtain ⟨k, rs⟩ := b
    have h1 : sumCounts (statsYears ((k, rs) :: rest)) =
        rs.length + sumCounts (statsYears rest) := rfl
    rw [h1, ih]
    rfl

/-- A bump adds exactly its count to the distribution total. -/
theorem sumCounts_bumpYear (yt : List (Int × Nat)) (y : Int) (c : Nat) :
    sumCounts (bumpYear yt y c) = sumCounts yt + c := by
  induction yt with
  | nil => simp [bumpYear, sumCounts]
  | cons b rest ih =>
    obtain ⟨k, n⟩ := b
    by_cases hk : k = y
    · subst hk
      simp [bumpYear, sumCounts]
      omega
    · simp [bumpYear, if_neg hk, sumCounts, ih]
      omega

/-- Merging a distribution adds its total. -/
theorem sumCounts_addYearCounts (ys : List (Int × Nat)) :
    ∀ yt, sumCounts (addYearCounts yt ys) = sumCounts yt + sumCounts ys := by
  induction ys with
  | nil =>
    intro yt
    simp [addYearCounts, sumCounts]
  | cons b rest ih =>
    intro yt
    obtain ⟨y, c⟩ := b
    simp only [addYearCounts]
    rw [ih, sumCounts_bumpYear]
    simp [sumCounts]
    omega

/-- The aggregation total is the sum of succeeded per-file counts. -/
theorem aggregateAux_total (rs : List (Except String FileStats)) :
    ∀ t yt, (aggregateAux rs t yt).1 = t + okRecords rs := by
  induction rs with
  | nil =>
    intro t yt
    simp [aggregateAux, okRecords]
  | cons x rest ih =>
    intro t yt
    cases x with
    | error e => simp [aggregateAux, okRecords, ih]
    | ok s =>
      simp [aggregateAux, okRecords, ih]
      omega

/-- The aggregated year distribution sums to the sum of succeeded
per-file distribution totals. -/
theorem aggregateAux_years (rs : List (Except String FileStats)) :
    ∀ t yt, sumCounts (aggregateAux rs t yt).2 = sumCounts yt + okYearsSum rs := by
  induction rs with
  | nil =>
    intro t yt
    simp [aggregateAux, okYearsSum]
  | cons x rest ih =>
    intro t yt
    cases x with
    | error e => simp [aggregateAux, okYearsSum, ih]
    | ok s =>
      simp only [aggregateAux]
      rw [ih, sumCounts_addYearCounts]
      simp [okYearsSum]
      omega

/-- When every succeeded file balances, the two run-level sums agree. -/
theorem okYearsSum_eq_okRecords (rs : List (Except String FileStats))
    (h : ∀ s, Except.ok s ∈ rs → sumCounts s.years = s.records) :
    okYearsSum rs = okRecords rs := by
  induction rs with
  | nil => rfl
  | cons x rest ih =>
    have hrest : ∀ s, Except.ok s ∈ rest → sumCounts s.years = s.records :=
      fun s hs => h s (List.mem_cons_of_mem _ hs)
    cases x with
    | error e => simp [okYearsSum, okRecords, ih hrest]
    | ok s =>
      simp only [okYearsSum, okRecords]
      rw [ih hrest, h s (List.mem_cons_self _ _)]

/-- C7: Partition completeness.  CONFIRMED: for every per-file task the
per-year counts sum to its record count (which is the number of source
records read in the blob path, and the number of successfully extracted
records in the XML path), and the run-level aggregation preserves the
balance: the per-year totals of the Run Metadata sum to the total record
count, which is the sum of the per-file counts of the succeeded tasks. -/
theorem C7_partition_completeness :
    (∀ input bs stats, processParquetFile input = .ok (bs, stats) →
      sumCounts stats.years = stats.records ∧ stats.records = input.length) ∧
    (∀ elems : List XElem,
      sumCounts (processXmlFile elems).2.years = (processXmlFile elems).2.records ∧
      (processXmlFile elems).2.records =
        (elems.filter (fun e => (extract_article_fields e).isSome)).length) ∧
    (∀ results : List (Except String FileStats),
      (∀ s, Except.ok s ∈ results → sumCounts s.years = s.records) →
      sumCounts (aggregateResults results).2 = (aggregateResults results).1 ∧
      (aggregateResults results).1 = okRecords results) := by
  refine ⟨?_, ?_, ?_⟩
  · intro input bs stats h
    unfold processParquetFile at h
    cases hp : processParquetRecords input [] with
    | error e =>
      rw [hp] at h
      cases h
    | ok bs0 =>
      rw [hp] at h
      cases h
      constructor
      · rw [sumCounts_statsYears]
        have h2 := ppr_sumSizes input [] _ hp
        simpa [sumSizes] using h2
      · rfl
  · intro elems
    constructor
    · unfold processXmlFile
      simp only []
      rw [sumCounts_statsYears]
      have h2 := pxr_sumSizes elems [] 0
      simpa [sumSizes] using h2
    · unfold processXmlFile
      simp only []
      simpa using pxr_count elems [] 0
  · intro results h
    constructor
    · unfold aggregateResults
      rw [aggregateAux_years, aggregateAux_total]
      simp [sumCounts, okYearsSum_eq_okRecords results h]
    · unfold aggregateResults
      rw [aggregateAux_total]
      omega

/-- Witness for C6 at the concrete one-row input. -/
theorem C6_partition_routing_witness :
    (bucketKeys c6buckets).Nodup ∧ sumSizes c6buckets = c6input.length :=
  ⟨(C6_partition_routing.1 c6input c6buckets c6stats rfl).1,
   (C6_partition_routing.1 c6input c6buckets c6stats rfl).2.2.1⟩

/-- Witness for C7 at concrete inputs: the per-file balance for a
concrete file and the run-level balance for a concrete result list. -/
theorem C7_partition_completeness_witness :
    (sumCounts c6stats.years = c6stats.records ∧ c6stats.records = c6input.length) ∧
    (sumCounts (aggregateResults c7results).2 = (aggregateResults c7results).1 ∧
      (aggregateResults c7results).1 = okRecords c7results) :=
  ⟨C7_partition_completeness.1 c6input c6buckets c6stats rfl,
   C7_partition_completeness.2.2 c7results (by
     intro s hs
     simp [c7results] at hs
     subst hs
     rfl)⟩

/-- A nonempty bucket's recorded per-year count is its size. -/
theorem lookupCount_statsYears (bs : Buckets) (k : Int) (h : bucketOf bs k ≠ []) :
    lookupCount (statsYears bs) k = some (bucketOf bs k).length := by
  induction bs with
  | nil => simp [bucketOf] at h
  | cons b rest ih =>
    obtain ⟨k0, rs0⟩ := b
    by_cases hk : k0 = k
    · subst hk
      simp [statsYears, lookupCount, bucketOf]
    · have h2 : bucketOf rest k ≠ [] := by
        simpa [bucketOf, if_neg hk] using h
      have hstep : lookupCount (statsYears ((k0, rs0) :: rest)) k =
          lookupCount (statsYears rest) k := by
        simp [statsYears, lookupCount, if_neg hk]
      have hb : bucketOf ((k0, rs0) :: rest) k = bucketOf rest k := by
        simp [bucketOf, if_neg hk]
      rw [hstep, hb]
      exact ih h2

/-- C10: In the blob-reprocessing path, every input row whose JSON blob
fails to decode yields the degraded row with null year, is routed to the
sentinel partition `year=0`, appears in that bucket, is counted in that
bucket's per-year count, and is included in the task's total record
count — undecodable blobs end up queryable under partition key 0, never
lost.  CONFIRMED. -/
theorem C10_undecodable_blob_partition :
    ∀ pmid s input bs stats, json_loads s = none → (pmid, s) ∈ input →
      processParquetFile input = .ok (bs, stats) →
      (degradedRow (intToString pmid) s).Year = none ∧
      routeKey (degradedRow (intToString pmid) s).Year = 0 ∧
      degradedRow (intToString pmid) s ∈ bucketOf bs 0 ∧
      lookupCount stats.years 0 = some (bucketOf bs 0).length ∧
      0 < (bucketOf bs 0).length ∧
      stats.records = input.length := by
  intro pmid s input bs stats hj hin h
  have hex : extract_fields (intToString pmid) s = .ok (degradedRow (intToString pmid) s) := by
    unfold extract_fields
    rw [hj]
  unfold processParquetFile at h
  cases hp : processParquetRecords input [] with
  | error e =>
    rw [hp] at h
    cases h
  | ok bs0 =>
    rw [hp] at h
    cases h
    have hmem := ppr_mem input [] _ hp pmid s _ hin hex
    refine ⟨rfl, rfl, hmem, ?_, ?_, rfl⟩
    · exact lookupCount_statsYears _ 0 (List.ne_nil_of_mem hmem)
    · exact List.length_pos.mpr (List.ne_nil_of_mem hmem)

/-- Witness for C10 at the concrete undecodable blob. -/
theorem C10_undecodable_blob_partition_witness :
    degradedRow (intToString 7) "nope" ∈ bucketOf c10buckets 0 ∧
    lookupCount c10stats.years 0 = some (bucketOf c10buckets 0).length ∧
    c10stats.records = c10input.length :=
  ⟨(C10_undecodable_blob_partition 7 "nope" c10input c10buckets c10stats rfl
      (List.mem_singleton.mpr rfl) rfl).2.2.1,
   (C10_undecodable_blob_partition 7 "nope" c10input c10buckets c10stats rfl
      (List.mem_singleton.mpr rfl) rfl).2.2.2.1,
   (C10_undecodable_blob_partition 7 "nope" c10input c10buckets c10stats rfl
      (List.mem_singleton.mpr rfl) rfl).2.2.2.2.2⟩

/-- A fresh write is immediately readable. -/
theorem storeLookup_storeWrite_self (st : Store) (key : Int × String) (v : List Row) :
    storeLookup (storeWrite st key v) key = some v := by
  induction st with
  | nil => simp [storeWrite, storeLookup]
  | cons b rest ih =>
    obtain ⟨k0, v0⟩ := b
    by_cases hk : k0 = key
    · subst hk
      simp [storeWrite, storeLookup]
    · simp [storeWrite, if_neg hk, storeLookup, ih]

/-- Writing one path leaves other paths unchanged. -/
theorem storeLookup_storeWrite_other (st : Store) (key : Int × String) (v : List Row)
    (key' : Int × String) (h : key' ≠ key) :
    storeLookup (storeWrite st key v) key' = storeLookup st key' := by
  induction st with
  | nil =>
    simp only [storeWrite, storeLookup]
    rw [if_neg (fun hh => h hh.symm)]
  | cons b rest ih =>
    obtain ⟨k0, v0⟩ := b
    by_cases hk : k0 = key
    · subst hk
      simp only [storeWrite, if_pos rfl, storeLookup]
      rw [if_neg (fun hh => h hh.symm), if_neg (fun hh => h hh.symm)]
    · simp only [storeWrite, if_neg hk, storeLookup]
      by_cases hk0 : k0 = key'
      · subst hk0
        simp
      · rw [if_neg hk0, if_neg hk0]
        exact ih

/-- Rewriting a path with the content it already holds is a no-op. -/
theorem storeWrite_self_id (st : Store) (key : Int × String) (v : List Row)
    (h : storeLookup st key = some v) : storeWrite st key v = st := by
  induction st with
  | nil => simp [storeLookup] at h
  | cons b rest ih =>
    obtain ⟨k0, v0⟩ := b
    by_cases hk : k0 = key
    · subst hk
      have h0 : v0 = v := by
        have hl : storeLookup ((k0, v0) :: rest) k0 = some v0 := by
          simp [storeLookup]
        rw [hl] at h
        injection h
      subst h0
      simp [storeWrite]
    · simp only [storeLookup, if_neg hk] at h
      simp [storeWrite, if_neg hk, ih h]

/-- Writing buckets does not touch year keys outside the bucket map. -/
theorem writeBuckets_lookup_notmem (bs : Buckets) :
    ∀ st fname k, k ∉ bucketKeys bs →
      storeLookup (writeBuckets st fname bs) (k, fname) = storeLookup st (k, fname) := by
  induction bs with
  | nil =>
    intro st fname k _
    rfl
  | cons b rest ih =>
    intro st fname k h
    obtain ⟨k0, rs0⟩ := b
    simp only [bucketKeys, List.map_cons, List.mem_cons, not_or] at h
    rw [show writeBuckets st fname ((k0, rs0) :: rest) =
        writeBuckets (storeWrite st (k0, fname) rs0) fname rest from rfl]
    rw [ih _ _ _ h.2]
    exact storeLookup_storeWrite_other _ _ _ _
      (fun hh => h.1 (congrArg Prod.fst hh))

/-- After writing a bucket map with distinct keys, each partition file
holds exactly its bucket's rows. -/
theorem writeBuckets_lookup_mem (bs : Buckets) :
    ∀ st fname k rs, (bucketKeys bs).Nodup → (k, rs) ∈ bs →
      storeLookup (writeBuckets st fname bs) (k, fname) = some rs := by
  induction bs with
  | nil =>
    intro st fname k rs _ hmem
    simp at hmem
  | cons b rest ih =>
    intro st fname k rs hnd hmem
    obtain ⟨k0, rs0⟩ := b
    simp only [bucketKeys, List.map_cons, List.nodup_cons] at hnd
    rcases List.mem_cons.mp hmem with heq2 | htail
    · injection heq2 with h1 h2
      subst h1; subst h2
      rw [show writeBuckets st fname ((k, rs) :: rest) =
          writeBuckets (storeWrite st (k, fname) rs) fname rest from rfl]
      rw [writeBuckets_lookup_notmem rest _ _ _ hnd.1]
      exact storeLookup_storeWrite_self _ _ _
    · rw [show writeBuckets st fname ((k0, rs0) :: rest) =
          writeBuckets (storeWrite st (k0, fname) rs0) fname rest from rfl]
      exact ih _ _ _ _ hnd.2 htail

/-- Writing buckets whose contents the store already holds changes
nothing. -/
theorem writeBuckets_absorb (bs : Buckets) :
    ∀ st fname, (∀ k rs, (k, rs) ∈ bs → storeLookup st (k, fname) = some rs) →
      writeBuckets st fname bs = st := by
  induction bs with
  | nil =>
    intro st fname _
    rfl
  | cons b rest ih =>
    intro st fname h
    obtain ⟨k0, rs0⟩ := b
    rw [show writeBuckets st fname ((k0, rs0) :: rest) =
        writeBuckets (storeWrite st (k0, fname) rs0) fname rest from rfl]
    rw [storeWrite_self_id st _ _ (h k0 rs0 (List.mem_cons_self _ _))]
    exact ih st fname (fun k rs hm => h k rs (List.mem_cons_of_mem _ hm))

/-- C8: Reprocessing the same source file twice with the same extractor
and output root yields identical row content per partition, for both
pipelines: each per-file processing function is a pure function of the
input, its bucket keys are distinct, and rerunning a task overwrites
every partition file of that source file wholesale with the same rows,
leaving the output tree unchanged.  CONFIRMED. -/
theorem C8_idempotent_rerun :
    (∀ st fname input,
      runParquetFileTask (runParquetFileTask st fname input) fname input =
        runParquetFileTask st fname input) ∧
    (∀ st fname elems,
      runXmlFileTask (runXmlFileTask st fname elems) fname elems =
        runXmlFileTask st fname elems) := by
  constructor
  · intro st fname input
    unfold runParquetFileTask
    cases hp : processParquetFile input with
    | error e => rfl
    | ok p =>
      obtain ⟨bs, stats⟩ := p
      have hnd : (bucketKeys bs).Nodup := by
        unfold processParquetFile at hp
        cases hq : processParquetRecords input [] with
        | error e =>
          rw [hq] at hp
          cases hp
        | ok bs0 =>
          rw [hq] at hp
          cases hp
          exact ppr_nodup input [] _ hq (by simp [bucketKeys])
      show writeBuckets (writeBuckets st fname bs) fname bs = writeBuckets st fname bs
      exact writeBuckets_absorb bs _ _
        (fun k rs hm => writeBuckets_lookup_mem bs st fname k rs hnd hm)
  · intro st fname elems
    have hnd : (bucketKeys (processXmlFile elems).1).Nodup :=
      pxr_nodup elems [] 0 (by simp [bucketKeys])
    show writeBuckets (writeBuckets st fname (processXmlFile elems).1) fname
        (processXmlFile elems).1 = writeBuckets st fname (processXmlFile elems).1
    exact writeBuckets_absorb _ _ _
      (fun k rs hm => writeBuckets_lookup_mem _ st fname k rs hnd hm)
